import Mathlib

/-!
# Verification of the lunarbase persistence substrate

A shallow embedding of the persistence layer
(`lunarbase/persistence/__init__.py`) and the polymorphic DataSource
validation system (`lunarbase/modeling/datasources/__init__.py`) of the
`lunar` repository, together with proofs and refutations of the spec's
claims about them.

Paths are modelled as strings joined with POSIX `pathlib` semantics
(an absolute right operand resets the accumulated path, exactly as
`pathlib.Path(a, b)` does); filesystem state is explicit.
-/

namespace Lunar

/-! ## Python `pathlib` path construction -/

/-- A POSIX path is absolute when its first character is `/`. -/
def isAbsolute (s : String) : Bool :=
  match s.data with
  | [] => false
  | c :: _ => c == '/'

/-- Joining one component onto an accumulated path, modelling
`pathlib.PurePosixPath` argument combination: an absolute right operand
discards everything to its left; otherwise the parts are separated by a
single `/`.  (Redundant separators and `.` segments, which `pathlib`
collapses, do not occur in the inputs considered here.) -/
def pyPathJoin (a b : String) : String :=
  if isAbsolute b then b
  else if a = "" then b
  else a ++ "/" ++ b

/-- `pathStr parts` models `str(pathlib.Path(*parts))`. -/
def pathStr (parts : List String) : String :=
  parts.foldl pyPathJoin ""

/-! ## Configuration

Modelled from the spec: the repository's `lunarbase.config.LunarConfig`
is not under `src/`; its path-layout fields are reconstructed from the
spec's directory-layout convention (§6):
`BASE/users/{user}/datasources/{id}.json`, `BASE/users/{user}/llms/{id}.json`,
workflow/file/index/custom/tmp roots and the `environment` marker file. -/

/-- Modelled from the spec: the storage-type enum
(`lunarbase.config.Storage`, not under `src/`); only the local backend is
implemented, alternates are an extension point. -/
inductive Storage where
  | LOCAL
  | EXTERNAL
deriving DecidableEq, Repr

/-- Modelled from the spec: the configuration record
(`lunarbase.config.LunarConfig`, not under `src/`), restricted to the
fields the persistence layer reads; defaults follow the spec's §6 layout
with base path `/lunar`. -/
structure LunarConfig where
  LUNAR_STORAGE_BASE_PATH : String := "/lunar"
  USER_DATA_PATH : String := "/lunar/users"
  USER_WORKFLOW_ROOT : String := "workflows"
  USER_DATASOURCE_ROOT : String := "datasources"
  USER_LLM_ROOT : String := "llms"
  USER_FILE_ROOT : String := "files"
  USER_INDEX_ROOT : String := "index"
  COMPONENT_INDEX_NAME : String := "component"
  WORKFLOW_INDEX_NAME : String := "workflow"
  USER_CUSTOM_ROOT : String := "custom"
  TMP_PATH : String := "tmp"
  USER_ENVIRONMENT_FILE : String := "environment"
  LUNAR_STORAGE_TYPE : Storage := Storage.LOCAL
deriving DecidableEq, Repr

/-- The deployed configuration used for concrete evaluations. -/
def defaultConfig : LunarConfig := {}

/-! ## PersistenceLayer path resolvers (from the source) -/

/-- `PersistenceLayer.get_user_tmp`. -/
def get_user_tmp (cfg : LunarConfig) (user_id : String) : String :=
  pathStr [cfg.USER_DATA_PATH, user_id, cfg.TMP_PATH]

/-- `PersistenceLayer.get_user_workflow_root`. -/
def get_user_workflow_root (cfg : LunarConfig) (user_id : String) : String :=
  pathStr [cfg.USER_DATA_PATH, user_id, cfg.USER_WORKFLOW_ROOT]

/-- `PersistenceLayer.get_user_environment_path`. -/
def get_user_environment_path (cfg : LunarConfig) (user_id : String) : String :=
  pathStr [cfg.USER_DATA_PATH, user_id, cfg.USER_ENVIRONMENT_FILE]

/-- `PersistenceLayer.get_user_component_index`. -/
def get_user_component_index (cfg : LunarConfig) (user_id : String) : String :=
  pathStr [cfg.USER_DATA_PATH, user_id, cfg.USER_INDEX_ROOT, cfg.COMPONENT_INDEX_NAME]

/-- `PersistenceLayer.get_user_workflow_index`. -/
def get_user_workflow_index (cfg : LunarConfig) (user_id : String) : String :=
  pathStr [cfg.USER_DATA_PATH, user_id, cfg.USER_INDEX_ROOT, cfg.WORKFLOW_INDEX_NAME]

/-- `PersistenceLayer.get_user_datasource_root`. -/
def get_user_datasource_root (cfg : LunarConfig) (user_id : String) : String :=
  pathStr [cfg.USER_DATA_PATH, user_id, cfg.USER_DATASOURCE_ROOT]

/-- `PersistenceLayer.get_datasource_path`: joins
`f"{datasource_id}.json"` onto the user's datasource root. -/
def get_datasource_path (cfg : LunarConfig) (user_id datasource_id : String) : String :=
  pathStr [get_user_datasource_root cfg user_id, datasource_id ++ ".json"]

/-- `PersistenceLayer.get_user_llm_root`. -/
def get_user_llm_root (cfg : LunarConfig) (user_id : String) : String :=
  pathStr [cfg.USER_DATA_PATH, user_id, cfg.USER_LLM_ROOT]

/-- `PersistenceLayer.get_llm_path`: joins `f"{llm_id}.json"` onto the
user's llm root. -/
def get_llm_path (cfg : LunarConfig) (user_id llm_id : String) : String :=
  pathStr [get_user_llm_root cfg user_id, llm_id ++ ".json"]

/-- `PersistenceLayer.get_user_file_root`. -/
def get_user_file_root (cfg : LunarConfig) (user_id : String) : String :=
  pathStr [cfg.USER_DATA_PATH, user_id, cfg.USER_FILE_ROOT]

/-- `PersistenceLayer.get_user_custom_root`. -/
def get_user_custom_root (cfg : LunarConfig) (user_id : String) : String :=
  pathStr [cfg.USER_DATA_PATH, user_id, cfg.USER_CUSTOM_ROOT]

/-- The two per-kind document resolvers named by the spec's injectivity
claim. -/
inductive DocKind where
  | datasource
  | llm
deriving DecidableEq, Repr

/-- Dispatch to `get_datasource_path` / `get_llm_path` by document kind. -/
def resolve_document_path (cfg : LunarConfig) : DocKind → String → String → String
  | DocKind.datasource, u, i => get_datasource_path cfg u i
  | DocKind.llm, u, i => get_llm_path cfg u i

/-- The root directory name that `resolve_document_path` uses for each
document kind under the deployed configuration. -/
def docKindRoot : DocKind → String
  | DocKind.datasource => "datasources"
  | DocKind.llm => "llms"

/-- A path segment that is safe under `/`-joining: nonempty and free of
path separators. -/
def goodSeg (s : String) : Prop := s.data ≠ [] ∧ '/' ∉ s.data

instance (s : String) : Decidable (goodSeg s) := by
  unfold goodSeg; infer_instance

/-! ## Errors

The spec's error taxonomy (§7); in the Python source these surface as
`ValueError` (path validation, unknown storage type), `FileNotFoundError`
(missing file), `json.JSONDecodeError` (corrupt document), `TypeError`
(`Path(None)`), `FileExistsError` and `NotImplementedError`. -/

inductive PyError where
  | invalidPathError
  | notFoundError
  | corruptDocumentError
  | typeError
  | fileExistsError
  | notImplementedError
  | valueError
deriving DecidableEq, Repr

instance {e a : Type} [DecidableEq e] [DecidableEq a] : DecidableEq (Except e a) := fun
  | .error x, .error y =>
    if h : x = y then .isTrue (by rw [h]) else .isFalse (by intro he; cases he; exact h rfl)
  | .error _, .ok _ => .isFalse fun h => nomatch h
  | .ok _, .error _ => .isFalse fun h => nomatch h
  | .ok x, .ok y =>
    if h : x = y then .isTrue (by rw [h]) else .isFalse (by intro he; cases he; exact h rfl)

/-! ## Path normalization and base-root validation -/

/-- Split a character list at a separator (the char-level counterpart of
`str.split("/")`, written structurally so that it evaluates by kernel
reduction). -/
def splitOnChar (sep : Char) : List Char → List (List Char)
  | [] => [[]]
  | c :: cs =>
    match splitOnChar sep cs with
    | [] => [[]]
    | g :: gs => if c = sep then [] :: g :: gs else (c :: g) :: gs

/-- The `/`-separated segments of a path string. -/
def pathSegs (p : String) : List (List Char) :=
  splitOnChar '/' p.data

/-- Join segments with `/` separators (the counterpart of
`"/".join(...)`). -/
def joinSlash : List (List Char) → List Char
  | [] => []
  | [g] => g
  | g :: gs => g ++ '/' :: joinSlash gs

/-- One step of POSIX segment normalization: `.` and empty segments are
dropped, `..` pops the last kept segment. -/
def normStep (acc : List (List Char)) (s : List Char) : List (List Char) :=
  if s = [] ∨ s = ['.'] then acc
  else if s = ['.', '.'] then acc.dropLast
  else acc ++ [s]

/-- Collapse step applied along the segment list. -/
def normalizeSegs (segs : List (List Char)) : List (List Char) :=
  segs.foldl normStep []

/-- Normal form of an absolute path: leading `/`, `..`/`.` collapsed. -/
def normalizePath (p : String) : String :=
  String.mk ('/' :: joinSlash (normalizeSegs (pathSegs p)))

/-- `underPath root p` holds when `p` equals `root` or lies strictly below
it. -/
def underPath (root p : String) : Bool :=
  p == root || (root ++ "/").data.isPrefixOf p.data

/-- Modelled from the spec: the storage backend's path resolution
(`prefect.filesystems.LocalFileSystem._resolve_path`, which every
`PersistenceLayer` operation calls, is not under `src/`).  Per §4.2: "All
operations first validate `path` lies within the configured base root
(defense against path traversal via crafted ids); failing this check
raises `InvalidPathError` before any I/O."  A relative path is joined onto
the base root; the result is normalized and must stay within the base. -/
def resolve_path (base path : String) : Except PyError String :=
  let norm := normalizePath (pyPathJoin base path)
  if underPath base norm then .ok norm
  else .error PyError.invalidPathError

/-! ## Filesystem state and the local storage backend -/

/-- Local filesystem state: a set of directories and a list of files with
string contents (most recent write first). -/
structure FS where
  dirs : Finset String
  files : List (String × String)
deriving DecidableEq

/-- The empty filesystem. -/
def FS.empty : FS := ⟨∅, []⟩

/-- The proper ancestor directories of an absolute path, e.g.
`/a/b/c ↦ [/a, /a/b]`. -/
def ancestorPaths (p : String) : List String :=
  let segs := (pathSegs p).filter (fun s => s ≠ [])
  (List.range segs.length).filterMap
    (fun n => if n = 0 then none else some (String.mk ('/' :: joinSlash (segs.take n))))

/-- `pathlib.Path.mkdir(parents=..., exist_ok=...)`: raises
`FileExistsError` when the directory exists and `exist_ok` is false;
creates missing ancestors when `parents` is true.  (The source only ever
calls it with `parents=True, exist_ok=True`.) -/
def mkdir (fs : FS) (p : String) (parents exist_ok : Bool) : Except PyError FS :=
  if p ∈ fs.dirs then
    if exist_ok then .ok fs else .error PyError.fileExistsError
  else
    .ok { fs with dirs := (if parents then (ancestorPaths p).toFinset else ∅) ∪ fs.dirs ∪ {p} }

/-- `pathlib.Path.touch(exist_ok=...)`: creates an empty file if absent;
raises `FileExistsError` when present and `exist_ok` is false. -/
def touch (fs : FS) (p : String) (exist_ok : Bool) : Except PyError FS :=
  if (fs.files.lookup p).isSome then
    if exist_ok then .ok fs else .error PyError.fileExistsError
  else
    .ok { fs with files := (p, "") :: fs.files }

/-- The directories `PersistenceLayer.init_user_profile` creates, in
source order (persistence/__init__.py lines 201–214). -/
def scaffold_dir_targets (cfg : LunarConfig) (u : String) : List String :=
  [ get_user_workflow_root cfg u,
    get_user_datasource_root cfg u,
    get_user_llm_root cfg u,
    get_user_file_root cfg u,
    pathStr [cfg.USER_DATA_PATH, u, cfg.USER_INDEX_ROOT],
    get_user_component_index cfg u,
    get_user_workflow_index cfg u,
    get_user_custom_root cfg u,
    get_user_tmp cfg u ]

/-- `PersistenceLayer.init_user_profile`: after the local-storage guard,
creates the per-user scaffold directories with
`mkdir(parents=True, exist_ok=True)` in source order and finally
touch-creates the `environment` marker file with `exist_ok=True`. -/
def init_user_profile (cfg : LunarConfig) (fs : FS) (u : String) : Except PyError FS :=
  if cfg.LUNAR_STORAGE_TYPE ≠ Storage.LOCAL then .error PyError.notImplementedError
  else do
    let fs1 ← (scaffold_dir_targets cfg u).foldlM (fun s p => mkdir s p true true) fs
    touch fs1 (get_user_environment_path cfg u) true

/-- Total form of `mkdir _ _ true true` (which never errors). -/
def mkdirF (fs : FS) (p : String) : FS :=
  if p ∈ fs.dirs then fs
  else { fs with dirs := (ancestorPaths p).toFinset ∪ fs.dirs ∪ {p} }

/-- Total form of `touch _ _ true` (which never errors). -/
def touchF (fs : FS) (p : String) : FS :=
  if (fs.files.lookup p).isSome then fs
  else { fs with files := (p, "") :: fs.files }

/-- The filesystem state `init_user_profile` produces (its error-free
normal form under local storage). -/
def initF (cfg : LunarConfig) (fs : FS) (u : String) : FS :=
  touchF ((scaffold_dir_targets cfg u).foldl mkdirF fs) (get_user_environment_path cfg u)

/-! ## Storage backend operations -/

/-- Modelled from the spec: the backend's `write(path, bytes)` (§4.2,
`LocalFileSystem.write_path` is not under `src/`): validates the path,
creates parent directories, overwrites the file. -/
def write_path (base : String) (fs : FS) (path content : String) : Except PyError FS :=
  match resolve_path base path with
  | .error e => .error e
  | .ok rp =>
      .ok { fs with
        dirs := (ancestorPaths rp).toFinset ∪ fs.dirs,
        files := (rp, content) :: fs.files.filter (fun pc => pc.1 ≠ rp) }

/-- Modelled from the spec: the backend's `read(path)` (§4.2,
`LocalFileSystem.read_path` is not under `src/`): validates the path, then
fails with `NotFoundError` if absent. -/
def read_path (base : String) (fs : FS) (path : String) : Except PyError String :=
  match resolve_path base path with
  | .error e => .error e
  | .ok rp =>
      match fs.files.lookup rp with
      | some c => .ok c
      | none => .error PyError.notFoundError

/-- `PersistenceLayer.get_file_by_path`: delegates to the backend's
`read_path`. -/
def get_file_by_path (cfg : LunarConfig) (fs : FS) (path : String) : Except PyError String :=
  read_path cfg.LUNAR_STORAGE_BASE_PATH fs path

/-- The parent directory of an absolute path. -/
def parentDir (p : String) : String :=
  String.mk ('/' :: joinSlash (((pathSegs p).filter (fun s => s ≠ [])).dropLast))

/-- `PersistenceLayer.get_all_files`: resolves the path and globs `*`
(the immediate children of the resolved directory). -/
def get_all_files (cfg : LunarConfig) (fs : FS) (path : String) : Except PyError (List String) :=
  match resolve_path cfg.LUNAR_STORAGE_BASE_PATH path with
  | .error e => .error e
  | .ok rp =>
      .ok ((fs.dirs.sort (· ≤ ·) ++ fs.files.map Prod.fst).filter (fun q => parentDir q == rp))

/-- Modelled from the spec: the backend contract's `exists(path) -> bool`
(§4.2); it has no implementation under `src/`.  Like every operation it
first validates the path. -/
def exists_op (cfg : LunarConfig) (fs : FS) (path : String) : Except PyError Bool :=
  match resolve_path cfg.LUNAR_STORAGE_BASE_PATH path with
  | .error e => .error e
  | .ok rp => .ok (rp ∈ fs.dirs || (fs.files.lookup rp).isSome)

/-- `PersistenceLayer.delete`: resolves the path; a directory is removed
recursively (`shutil.rmtree`), otherwise the file is unlinked with
`missing_ok=False`, which raises `FileNotFoundError` when absent; returns
`True` after removal.  There is no `missing_ok` parameter. -/
def delete (cfg : LunarConfig) (fs : FS) (path : String) : Except PyError (Bool × FS) :=
  match resolve_path cfg.LUNAR_STORAGE_BASE_PATH path with
  | .error e => .error e
  | .ok rp =>
      if cfg.LUNAR_STORAGE_TYPE = Storage.LOCAL then
        if rp ∈ fs.dirs then
          .ok (true,
            ⟨fs.dirs.filter (fun d => ¬ underPath rp d),
             fs.files.filter (fun pc => ¬ underPath rp pc.1)⟩)
        else if (fs.files.lookup rp).isSome then
          .ok (true, ⟨fs.dirs, fs.files.filter (fun pc => pc.1 ≠ rp)⟩)
        else .error PyError.notFoundError
      else .error PyError.valueError

/-! ## `get_user_workflow_path` (user-id recovery by glob) -/

/-- `candidate.parent.parent.name`: the third-from-last component of a
matched workflow directory path. -/
def parentParentName (d : String) : String :=
  let comps := pathSegs d
  String.mk (comps.getD (comps.length - 3) [])

/-- Whether an existing directory matches the glob pattern
`{USER_DATA_PATH}/*/{USER_WORKFLOW_ROOT}/{workflow_id}` (`*` is a single
nonempty component). -/
def workflowDirMatch (cfg : LunarConfig) (d workflow_id : String) : Bool :=
  let pre := (cfg.USER_DATA_PATH ++ "/").data
  pre.isPrefixOf d.data &&
    match splitOnChar '/' (d.data.drop pre.length) with
    | [u, r, w] => !u.isEmpty && r == cfg.USER_WORKFLOW_ROOT.data && w == workflow_id.data
    | _ => false

/-- `PersistenceLayer.get_user_workflow_path`: with no `user_id`, globs
`USER_DATA_PATH/*/{workflow_root}/{workflow_id}` over the existing
directories (`dirsList`, in enumeration order) and takes the first
candidate's `parent.parent.name` as the user; if no candidate exists
`user_id` stays `None` and `Path(USER_DATA_PATH, None, ...)` raises
`TypeError`. -/
def get_user_workflow_path (cfg : LunarConfig) (dirsList : List String)
    (workflow_id : String) (user_id : Option String) : Except PyError String :=
  let uid : Option String :=
    match user_id with
    | some u => some u
    | none =>
        match dirsList.filter (fun d => workflowDirMatch cfg d workflow_id) with
        | [] => none
        | c :: _ => some (parentParentName c)
  match uid with
  | some u => .ok (pathStr [get_user_workflow_root cfg u, workflow_id])
  | none => .error PyError.typeError

/-! ## JSON documents

The document store serializes with `json.dumps(data, indent=2)`
(`ensure_ascii=True`, default separators) and parses with `json.loads`.
JSON values are modelled with integer numerics (the DataSource payloads
this store holds carry strings, objects, arrays, booleans and integers;
floating point is outside the embedding).  Objects are ordered pair
lists, as Python dicts preserve insertion order. -/

mutual

inductive JValue where
  | null
  | bool (b : Bool)
  | num (n : Int)
  | str (s : String)
  | arr (items : JItems)
  | obj (mems : JMems)

inductive JItems where
  | nil
  | cons (head : JValue) (tail : JItems)

inductive JMems where
  | nil
  | cons (key : String) (val : JValue) (tail : JMems)

end

def digitChar (n : Nat) : Char := Char.ofNat (48 + n)

def natDigits (fuel n : Nat) : List Char :=
  match fuel with
  | 0 => []
  | fuel + 1 => if n < 10 then [digitChar n] else natDigits fuel (n / 10) ++ [digitChar (n % 10)]

def serInt : Int → List Char
  | .ofNat n => natDigits (n + 1) n
  | .negSucc m => '-' :: natDigits (m + 2) (m + 1)

def hexDigitChar (n : Nat) : Char :=
  if n < 10 then Char.ofNat (48 + n) else Char.ofNat (87 + n)

def hexQuad (n : Nat) : List Char :=
  [hexDigitChar (n / 4096 % 16), hexDigitChar (n / 256 % 16),
   hexDigitChar (n / 16 % 16), hexDigitChar (n % 16)]

def escapeChar (c : Char) : List Char :=
  if c = '"' then ['\\', '"']
  else if c = '\\' then ['\\', '\\']
  else if c = '\x08' then ['\\', 'b']
  else if c = '\x0c' then ['\\', 'f']
  else if c = '\n' then ['\\', 'n']
  else if c = '\r' then ['\\', 'r']
  else if c = '\t' then ['\\', 't']
  else if c.toNat < 32 ∨ 126 < c.toNat then
    if c.toNat < 65536 then '\\' :: 'u' :: hexQuad c.toNat
    else
      '\\' :: 'u' :: hexQuad (55296 + (c.toNat - 65536) / 1024) ++
        '\\' :: 'u' :: hexQuad (56320 + (c.toNat - 65536) % 1024)
  else [c]

def escapeChars : List Char → List Char
  | [] => ['"']
  | c :: cs => escapeChar c ++ escapeChars cs

def serStr (s : String) : List Char := '"' :: escapeChars s.data

def indentChars (n : Nat) : List Char := List.replicate (2 * n) ' '

mutual

def serVal (ind : Nat) : JValue → List Char
  | .null => "null".data
  | .bool true => "true".data
  | .bool false => "false".data
  | .num i => serInt i
  | .str s => serStr s
  | .arr items => '[' :: serItemsFirst ind items
  | .obj mems => '{' :: serMemsFirst ind mems

def serItemsFirst (ind : Nat) : JItems → List Char
  | .nil => [']']
  | .cons x xs =>
      '\n' :: indentChars (ind + 1) ++ serVal (ind + 1) x ++ serItemsRest ind xs

def serItemsRest (ind : Nat) : JItems → List Char
  | .nil => '\n' :: indentChars ind ++ [']']
  | .cons y ys =>
      ',' :: '\n' :: indentChars (ind + 1) ++ serVal (ind + 1) y ++ serItemsRest ind ys

def serMemsFirst (ind : Nat) : JMems → List Char
  | .nil => ['}']
  | .cons k v ms =>
      '\n' :: indentChars (ind + 1) ++ serStr k ++ ':' :: ' ' :: serVal (ind + 1) v ++
        serMemsRest ind ms

def serMemsRest (ind : Nat) : JMems → List Char
  | .nil => '\n' :: indentChars ind ++ ['}']
  | .cons k v ms =>
      ',' :: '\n' :: indentChars (ind + 1) ++ serStr k ++ ':' :: ' ' :: serVal (ind + 1) v ++
        serMemsRest ind ms

end


def dumps (v : JValue) : String := String.mk (serVal 0 v)

example : dumps (JValue.obj (.cons "a" (.num 1) (.cons "b"
      (.arr (.cons (.str "x") (.cons .null .nil))) .nil)))
    = "\x7b\n  \"a\": 1,\n  \"b\": [\n    \"x\",\n    null\n  ]\n\x7d" := rfl

def skipWs : List Char → List Char
  | [] => []
  | c :: cs => if c = ' ' ∨ c = '\n' ∨ c = '\t' ∨ c = '\r' then skipWs cs else c :: cs

def hexVal (c : Char) : Option Nat :=
  if c ≤ '9' ∧ '0' ≤ c then some (c.toNat - 48)
  else if c ≤ 'f' ∧ 'a' ≤ c then some (c.toNat - 87)
  else if c ≤ 'F' ∧ 'A' ≤ c then some (c.toNat - 55)
  else none

def simpleUnescape : Char → Option Char
  | '"' => some '"'
  | '\\' => some '\\'
  | '/' => some '/'
  | 'b' => some '\x08'
  | 'f' => some '\x0c'
  | 'n' => some '\n'
  | 'r' => some '\r'
  | 't' => some '\t'
  | _ => none

def decodeHex4 : List Char → Option (Nat × List Char)
  | h1 :: h2 :: h3 :: h4 :: rest =>
    match hexVal h1, hexVal h2, hexVal h3, hexVal h4 with
    | some a, some b, some c, some d => some (4096 * a + 256 * b + 16 * c + d, rest)
    | _, _, _, _ => none
  | _ => none

def parseStringBody : Nat → List Char → Option (List Char × List Char)
  | 0, _ => none
  | _ + 1, [] => none
  | fuel + 1, c :: cs =>
    if c = '"' then some ([], cs)
    else if c = '\\' then
      match cs with
      | [] => none
      | e :: rest =>
        if e = 'u' then
          (decodeHex4 rest).bind (fun p =>
            if 55296 ≤ p.1 ∧ p.1 < 56320 then
              match p.2 with
              | '\\' :: 'u' :: rest3 =>
                (decodeHex4 rest3).bind (fun q =>
                  if 56320 ≤ q.1 ∧ q.1 < 57344 then
                    (parseStringBody fuel q.2).map (fun r =>
                      (Char.ofNat (65536 + 1024 * (p.1 - 55296) + (q.1 - 56320)) :: r.1, r.2))
                  else none)
              | _ => none
            else if 56320 ≤ p.1 ∧ p.1 < 57344 then none
            else (parseStringBody fuel p.2).map (fun r => (Char.ofNat p.1 :: r.1, r.2)))
        else
          match simpleUnescape e with
          | some d => (parseStringBody fuel rest).map (fun p => (d :: p.1, p.2))
          | none => none
    else (parseStringBody fuel cs).map (fun p => (c :: p.1, p.2))

def parseDigits (cs : List Char) : Option (Nat × List Char) :=
  let ds := cs.takeWhile (fun c => c.isDigit)
  if ds.isEmpty then none
  else some (ds.foldl (fun a c => a * 10 + (c.toNat - 48)) 0, cs.drop ds.length)

def parseNumber (cs : List Char) : Option (Int × List Char) :=
  match cs with
  | [] => none
  | c :: rest =>
    if c = '-' then (parseDigits rest).map (fun p => (-(p.1 : Int), p.2))
    else (parseDigits (c :: rest)).map (fun p => ((p.1 : Int), p.2))

def stripLit : List Char → List Char → Option (List Char)
  | [], cs => some cs
  | _ :: _, [] => none
  | p :: ps, c :: cs => if c = p then stripLit ps cs else none

mutual

def parseVal : Nat → List Char → Option (JValue × List Char)
  | 0, _ => none
  | fuel + 1, cs =>
    match skipWs cs with
    | [] => none
    | c :: cs1 =>
      if c = 'n' then (stripLit ['u', 'l', 'l'] cs1).map (fun r => (.null, r))
      else if c = 't' then (stripLit ['r', 'u', 'e'] cs1).map (fun r => (.bool true, r))
      else if c = 'f' then (stripLit ['a', 'l', 's', 'e'] cs1).map (fun r => (.bool false, r))
      else if c = '"' then
        (parseStringBody (cs1.length + 1) cs1).map (fun p => (.str (String.mk p.1), p.2))
      else if c = '[' then
        match skipWs cs1 with
        | [] => none
        | c2 :: cs2 =>
          if c2 = ']' then some (.arr .nil, cs2)
          else (parseArrItems fuel (c2 :: cs2)).map (fun p => (.arr p.1, p.2))
      else if c = '{' then
        match skipWs cs1 with
        | [] => none
        | c2 :: cs2 =>
          if c2 = '}' then some (.obj .nil, cs2)
          else (parseObjItems fuel (c2 :: cs2)).map (fun p => (.obj p.1, p.2))
      else (parseNumber (c :: cs1)).map (fun p => (.num p.1, p.2))

def parseArrItems : Nat → List Char → Option (JItems × List Char)
  | 0, _ => none
  | fuel + 1, cs =>
    match parseVal fuel cs with
    | none => none
    | some (v, r) =>
      match skipWs r with
      | [] => none
      | c :: r2 =>
        if c = ',' then
          match parseArrItems fuel r2 with
          | some (vs, r3) => some (.cons v vs, r3)
          | none => none
        else if c = ']' then some (.cons v .nil, r2)
        else none

def parseObjItems : Nat → List Char → Option (JMems × List Char)
  | 0, _ => none
  | fuel + 1, cs =>
    match skipWs cs with
    | [] => none
    | c :: cs1 =>
      if c = '"' then
        match parseStringBody (cs1.length + 1) cs1 with
        | none => none
        | some (k, r1) =>
          match skipWs r1 with
          | [] => none
          | c2 :: r2 =>
            if c2 = ':' then
              match parseVal fuel r2 with
              | none => none
              | some (v, r3) =>
                match skipWs r3 with
                | [] => none
                | c3 :: r4 =>
                  if c3 = ',' then
                    match parseObjItems fuel r4 with
                    | some (ms, r5) => some (.cons (String.mk k) v ms, r5)
                    | none => none
                  else if c3 = '}' then some (.cons (String.mk k) v .nil, r4)
                  else none
            else none
      else none

end

/-- `json.loads`: parse a whole document; anything but a single JSON value
surrounded by whitespace raises (the spec's `CorruptDocumentError`). -/
def loads (s : String) : Except PyError JValue :=
  match parseVal (s.data.length + 1) s.data with
  | some (v, rest) => if (skipWs rest).isEmpty then .ok v else .error PyError.corruptDocumentError
  | none => .error PyError.corruptDocumentError

/-- `PersistenceLayer.save_to_storage_as_json`: resolves the path (its
`ValueError` propagating), serializes with `json.dumps(data, indent=2)`
and writes through the backend's `write_path`. -/
def save_to_storage_as_json (cfg : LunarConfig) (fs : FS) (path : String) (data : JValue) :
    Except PyError FS :=
  match resolve_path cfg.LUNAR_STORAGE_BASE_PATH path with
  | .error e => .error e
  | .ok rp => write_path cfg.LUNAR_STORAGE_BASE_PATH fs rp (dumps data)

/-- `PersistenceLayer.get_from_storage_as_dict`: reads bytes through the
backend's `read_path` and parses them with `json.loads`. -/
def get_from_storage_as_dict (cfg : LunarConfig) (fs : FS) (path : String) :
    Except PyError JValue :=
  match read_path cfg.LUNAR_STORAGE_BASE_PATH fs path with
  | .error e => .error e
  | .ok content => loads content

/-- `str(element_path).lower().endswith(".json")`. -/
def isJsonName (p : String) : Bool :=
  List.isSuffixOf ".json".data (p.data.map Char.toLower)

/-- The per-path loop of `PersistenceLayer.get_all_as_dict`: paths whose
lower-cased name does not end in `.json` are skipped; each remaining
document is parsed with `get_from_storage_as_dict`, whose error aborts the
whole loop. -/
def get_all_loop (cfg : LunarConfig) (fs : FS) : List String → Except PyError (List JValue)
  | [] => .ok []
  | p :: ps =>
    if isJsonName p then
      match get_from_storage_as_dict cfg fs p with
      | .error e => .error e
      | .ok v =>
          match get_all_loop cfg fs ps with
          | .error e => .error e
          | .ok vs => .ok (v :: vs)
    else get_all_loop cfg fs ps

/-- `PersistenceLayer.get_all_as_dict`: resolves the scope path, expands
the glob (`element_paths` stands for the paths `glob.glob(resolved_path)`
returned, in enumeration order) and folds `get_all_loop` over them; a
non-local storage type raises `ValueError`. -/
def get_all_as_dict (cfg : LunarConfig) (fs : FS) (path : String)
    (element_paths : List String) : Except PyError (List JValue) :=
  match resolve_path cfg.LUNAR_STORAGE_BASE_PATH path with
  | .error e => .error e
  | .ok _ =>
      if cfg.LUNAR_STORAGE_TYPE = Storage.LOCAL then get_all_loop cfg fs element_paths
      else .error PyError.valueError

/-! ## Canonical JSON payloads

The payloads the round-trip claim ranges over: object keys are distinct at
each level (they come from Python dicts) and every string character is in
the basic multilingual plane (Lean has no lone surrogates and the
serializer's astral-plane surrogate-pair escapes are outside the proof's
scope); numbers are integers as fixed above. -/

/-- All characters of a string lie below `0x10000`. -/
def strCanon (s : String) : Prop := ∀ c ∈ s.data, c.toNat < 65536

instance (s : String) : Decidable (strCanon s) := by
  unfold strCanon; infer_instance

/-- The keys of an object member list. -/
def memKeys : JMems → List String
  | .nil => []
  | .cons k _ ms => k :: memKeys ms

mutual

inductive CanonVal : JValue → Prop where
  | null : CanonVal .null
  | bool (b : Bool) : CanonVal (.bool b)
  | num (n : Int) : CanonVal (.num n)
  | str (s : String) : strCanon s → CanonVal (.str s)
  | arr (items : JItems) : CanonItems items → CanonVal (.arr items)
  | obj (mems : JMems) : CanonMems mems → (memKeys mems).Nodup → CanonVal (.obj mems)

inductive CanonItems : JItems → Prop where
  | nil : CanonItems .nil
  | cons (v : JValue) (vs : JItems) : CanonVal v → CanonItems vs → CanonItems (.cons v vs)

inductive CanonMems : JMems → Prop where
  | nil : CanonMems .nil
  | cons (k : String) (v : JValue) (ms : JMems) :
      strCanon k → CanonVal v → CanonMems ms → CanonMems (.cons k v ms)

end

/-! ## DataSource modeling (`lunarbase.modeling.datasources`)

The polymorphic DataSource family: a `DataSourceType` enum whose member
values name the concrete subclasses, pydantic field validators for the
discriminator (`validate_type`) and for the connection attributes
(`validate_connection_attributes`), the `polymorphic_validation`
dispatcher, and the subclasses `LocalFile` and `Postgresql` whose `type`
fields are declared `frozen=True` under `validate_assignment = True`.

In the Python source every validation failure surfaces as `ValueError`
(wrapped by pydantic into a `ValidationError`); the failures carry
distinct messages, which the spec's error taxonomy names individually.
`DSError` models that taxonomy: `unknownType` is the
"Invalid DataSource type ...! Expected one of ..." family (the spec's
`UnknownTypeError`), `validationError` the
"Invalid connection attributes for DataSource ..." family, and
`frozenField` pydantic's frozen-field assignment error. -/

inductive DSError where
  | unknownType (val : Option String)
  | validationError (field : String)
  | frozenField (field : String)
deriving DecidableEq, Repr

/-- The `DataSourceType` enum; member values are the subclass names. -/
inductive DataSourceType where
  | LOCAL_FILE
  | POSTGRESQL
deriving DecidableEq, Repr

def DataSourceType.value : DataSourceType → String
  | .LOCAL_FILE => "LocalFile"
  | .POSTGRESQL => "Postgresql"

/-- `DataSourceType.list()`: the member values. -/
def DataSourceType.listValues : List String :=
  [DataSourceType.LOCAL_FILE, DataSourceType.POSTGRESQL].map DataSourceType.value

/-- ASCII uppercasing of one character, as `str.upper` acts on the ASCII
enum-member names that occur here. -/
def asciiUpper (c : Char) : Char :=
  if 97 ≤ c.toNat ∧ c.toNat ≤ 122 then Char.ofNat (c.toNat - 32) else c

/-- Python `s.upper()` on the ASCII strings involved in type lookups. -/
def pyUpper (s : String) : String := ⟨s.data.map asciiUpper⟩

/-- Enum lookup by member name, `DataSourceType[s]`: `none` models the
`KeyError` raised for an unknown name. -/
def dataSourceTypeOfName (s : String) : Option DataSourceType :=
  if s = "LOCAL_FILE" then some DataSourceType.LOCAL_FILE
  else if s = "POSTGRESQL" then some DataSourceType.POSTGRESQL
  else none

/-- The names of `DataSource.__subclasses__()`: the module defines exactly
`LocalFile` and `Postgresql`, so this set is nonempty and the
`len(subcls) == 0` fallback in `validate_type` is never taken. -/
def dataSourceSubclassNames : List String := ["LocalFile", "Postgresql"]

/-- The `type` field's value space: the field is annotated
`Union[str, DataSourceType]`, so a raw payload carries either a string or
an enum member. -/
inductive TypeField where
  | str (s : String)
  | enum (t : DataSourceType)
deriving DecidableEq, Repr

/-- `DataSource.validate_type`: a string is looked up as
`DataSourceType[value.upper()]` (a `KeyError` becomes the unknown-type
error); the resulting member's value must be a subclass name. -/
def validate_type : TypeField → Except DSError DataSourceType
  | .str s =>
    match dataSourceTypeOfName (pyUpper s) with
    | none => .error (DSError.unknownType (some s))
    | some t =>
      if t.value ∈ dataSourceSubclassNames then .ok t
      else .error (DSError.unknownType (some t.value))
  | .enum t =>
    if t.value ∈ dataSourceSubclassNames then .ok t
    else .error (DSError.unknownType (some t.value))

/-- The type-extraction step of `DataSource.polymorphic_validation`
(lines 68-76): read `obj_dict["type"]` (`none` models the `KeyError` of
an absent key), convert a string through `DataSourceType[...upper()]`,
and take the member's `value`. -/
def polymorphic_validation_type : Option TypeField → Except DSError String
  | none => .error (DSError.unknownType none)
  | some (.str s) =>
    match dataSourceTypeOfName (pyUpper s) with
    | none => .error (DSError.unknownType (some s))
    | some t => .ok t.value
  | some (.enum t) => .ok t.value

/-- The subclass-dispatch step of `polymorphic_validation` (lines 78-85):
the extracted value must name a subclass, which is then selected. -/
def polymorphic_validation_dispatch (base_class : String) : Except DSError DataSourceType :=
  if base_class = "LocalFile" then .ok DataSourceType.LOCAL_FILE
  else if base_class = "Postgresql" then .ok DataSourceType.POSTGRESQL
  else .error (DSError.unknownType (some base_class))

/-- The discriminator-handling prefix of `polymorphic_validation`:
extraction followed by dispatch. -/
def polymorphic_validation_step (ty : Option TypeField) : Except DSError DataSourceType :=
  match polymorphic_validation_type ty with
  | .error e => .error e
  | .ok base => polymorphic_validation_dispatch base

/-- Modelled from the spec: `LocalFileConnectionAttributes` lives in
`lunarbase.modeling.datasources.attributes`, which is not under `src/`;
the spec gives its shape as required `file_name` with a derived, optional
`file_type`. -/
structure LocalFileConnectionAttributes where
  file_name : String
  file_type : Option String := none
deriving DecidableEq, Repr

/-- Modelled from the spec: `PostgresqlConnectionAttributes` lives in
`lunarbase.modeling.datasources.attributes`, which is not under `src/`;
the spec gives its shape as the connection parameters host, credentials
and database, schema-validated with no liveness check. -/
structure PostgresqlConnectionAttributes where
  host : String
  credentials : String
  database : String
deriving DecidableEq, Repr

/-- A Python dict of connection attributes: ordered string keys mapping
to a string or `None` (the value space these schemas use). -/
abbrev AttrDict := List (String × Option String)

/-- First value stored under a key, as Python dict lookup. -/
def lookupKey : AttrDict → String → Option (Option String)
  | [], _ => none
  | (k, v) :: rest, key => if k = key then some v else lookupKey rest key

/-- The string stored under a key, if the key is present with a non-`None`
value. -/
def getStr (d : AttrDict) (k : String) : Option String :=
  match lookupKey d k with
  | some (some v) => some v
  | _ => none

/-- Modelled from the spec: `LocalFileConnectionAttributes.model_validate`
on a dict, with pydantic's default handling — the required `file_name`
must be present as a string, the optional `file_type` is taken if present,
and extra keys are ignored. -/
def localFileValidate (d : AttrDict) : Except DSError LocalFileConnectionAttributes :=
  match getStr d "file_name" with
  | some fn => .ok { file_name := fn, file_type := getStr d "file_type" }
  | none => .error (DSError.validationError "file_name")

/-- Modelled from the spec: `PostgresqlConnectionAttributes.model_validate`
on a dict — host, credentials and database must be present as strings,
extra keys are ignored. -/
def postgresqlValidate (d : AttrDict) : Except DSError PostgresqlConnectionAttributes :=
  match getStr d "host" with
  | none => .error (DSError.validationError "host")
  | some h =>
    match getStr d "credentials" with
    | none => .error (DSError.validationError "credentials")
    | some c =>
      match getStr d "database" with
      | none => .error (DSError.validationError "database")
      | some db => .ok { host := h, credentials := c, database := db }

/-- `DataSourceType.expected_connection_attributes`, second component: the
required field names of the expected schema. -/
def DataSourceType.expectedRequiredFields : DataSourceType → List String
  | .LOCAL_FILE => ["file_name"]
  | .POSTGRESQL => ["host", "credentials", "database"]

/-- A validated connection-attributes record of either schema. -/
inductive ConnAttrs where
  | localFile (a : LocalFileConnectionAttributes)
  | postgresql (a : PostgresqlConnectionAttributes)
deriving DecidableEq, Repr

/-- The `connection_attributes` value of a raw payload: the field is
annotated `Union[BaseModel, Dict]`, so it is a dict or an
already-constructed typed record. -/
inductive RawAttrs where
  | dict (d : AttrDict)
  | typedLocal (a : LocalFileConnectionAttributes)
  | typedPg (a : PostgresqlConnectionAttributes)
deriving DecidableEq, Repr

/-- Pydantic `model_dump` of the raw value (a dict dumps to itself). -/
def RawAttrs.model_dump : RawAttrs → AttrDict
  | .dict d => d
  | .typedLocal a => [("file_name", some a.file_name), ("file_type", a.file_type)]
  | .typedPg a =>
    [("host", some a.host), ("credentials", some a.credentials),
     ("database", some a.database)]

/-- The model-validation dispatch of `validate_connection_attributes`
(line 131-134): `_type.expected_connection_attributes()` picks the schema
class for the validated `type` field, and the dict is validated against
that schema. -/
def expectedConnectionValidate (t : DataSourceType) (d : AttrDict) : Except DSError ConnAttrs :=
  match t with
  | .LOCAL_FILE => (localFileValidate d).map ConnAttrs.localFile
  | .POSTGRESQL => (postgresqlValidate d).map ConnAttrs.postgresql

/-- `DataSource.validate_connection_attributes`: a non-dict value is
turned into a dict by `model_dump()`; an absent (failed) `type` in
`info.data` is an error; otherwise the dict is validated structurally
against the schema that the `type` member selects. -/
def validate_connection_attributes (ty : Option DataSourceType) (value : RawAttrs) :
    Except DSError ConnAttrs :=
  let d := value.model_dump
  match ty with
  | none => .error (DSError.validationError "type")
  | some t => expectedConnectionValidate t d

/-- The `LocalFile` subclass after construction: its `type` field defaults
to `LOCAL_FILE` and is declared `frozen=True`. -/
structure LocalFile where
  id : String
  name : String := "Local file datasource"
  type : DataSourceType := DataSourceType.LOCAL_FILE
  description : String :=
    "Local file datasource - allows read and write operations on local files."
  connection_attributes : LocalFileConnectionAttributes
deriving DecidableEq, Repr

/-- The `Postgresql` subclass after construction: its `type` field defaults
to `POSTGRESQL` and is declared `frozen=True`. -/
structure Postgresql where
  id : String
  name : String := "Postgresql datasource"
  type : DataSourceType := DataSourceType.POSTGRESQL
  description : String :=
    "Postgresql or SQLite datasource - allows read and write operations on a Postgresql or a local SQLite database."
  connection_attributes : PostgresqlConnectionAttributes
deriving DecidableEq, Repr

/-- `frozen=True` on `LocalFile.type` (source line 150). -/
def LocalFile.type_frozen : Bool := true

/-- `frozen=True` on `Postgresql.type` (source line 181). -/
def Postgresql.type_frozen : Bool := true

/-- Assignment to `instance.type` on a `LocalFile`: the model has
`validate_assignment = True`, so pydantic intercepts the assignment, and
the field being frozen makes it fail with the frozen-field error before
any value validation runs. -/
def LocalFile.assign_type (m : LocalFile) (v : TypeField) : Except DSError LocalFile :=
  if LocalFile.type_frozen then .error (DSError.frozenField "type")
  else (validate_type v).map fun t => { m with type := t }

/-- Assignment to `instance.type` on a `Postgresql`, as for `LocalFile`. -/
def Postgresql.assign_type (m : Postgresql) (v : TypeField) : Except DSError Postgresql :=
  if Postgresql.type_frozen then .error (DSError.frozenField "type")
  else (validate_type v).map fun t => { m with type := t }

/-- A constructed DataSource entity: an instance of one of the concrete
subclasses, as produced by `polymorphic_validation`. -/
inductive DSInstance where
  | localFile (m : LocalFile)
  | postgresql (m : Postgresql)
deriving DecidableEq, Repr

/-- The discriminator of a constructed entity. -/
def DSInstance.dsType : DSInstance → DataSourceType
  | .localFile m => m.type
  | .postgresql m => m.type

/-- Assignment to the `type` field of a constructed entity. -/
def DSInstance.assign_type : DSInstance → TypeField → Except DSError DSInstance
  | .localFile m, v => (m.assign_type v).map DSInstance.localFile
  | .postgresql m, v => (m.assign_type v).map DSInstance.postgresql

/-! ## Lemmas about path construction -/

theorem isAbsolute_false_of_goodSeg {s : String} (h : goodSeg s) :
    isAbsolute s = false := by
  obtain ⟨h1, h2⟩ := h
  unfold isAbsolute
  cases hs : s.data with
  | nil => rfl
  | cons c cs =>
    have hc : c ≠ '/' := fun he => h2 (by rw [hs, he]; exact List.mem_cons_self _ _)
    simp [hc]

theorem isAbsolute_append_false {s t : String} (h : goodSeg s) :
    isAbsolute (s ++ t) = false := by
  obtain ⟨h1, h2⟩ := h
  unfold isAbsolute
  cases hs : (s ++ t).data with
  | nil => rfl
  | cons c cs =>
    rw [String.data_append] at hs
    cases hd : s.data with
    | nil => exact absurd hd h1
    | cons a as =>
      rw [hd] at hs
      simp at hs
      have hc : c ≠ '/' := by
        rcases hs with ⟨hca, -⟩
        intro he
        apply h2
        rw [hd, hca, he]
        exact List.mem_cons_self _ _
      simp [hc]

theorem data_ne_nil_ne_empty {s : String} (h : s.data ≠ []) : s ≠ "" := by
  intro he
  subst he
  exact h rfl

theorem append_data_ne_nil {s t : String} (h : s.data ≠ []) : (s ++ t).data ≠ [] := by
  rw [String.data_append]
  intro he
  exact h (List.append_eq_nil.mp he).1

theorem pyPathJoin_abs {a b : String} (hb : isAbsolute b = true) :
    pyPathJoin a b = b := by
  simp [pyPathJoin, hb]

theorem pyPathJoin_rel {a b : String} (hb : isAbsolute b = false) (ha : a ≠ "") :
    pyPathJoin a b = a ++ "/" ++ b := by
  simp [pyPathJoin, hb, ha]

theorem pyPathJoin_empty_left (b : String) : pyPathJoin "" b = b := by
  unfold pyPathJoin
  split
  · rfl
  · simp

/-- Splitting at a separator char known to occur in neither left part is
unambiguous. -/
theorem noSep_append_sep_inj {l1 l2 r1 r2 : List Char}
    (h1 : '/' ∉ l1) (h2 : '/' ∉ l2)
    (h : l1 ++ '/' :: r1 = l2 ++ '/' :: r2) : l1 = l2 ∧ r1 = r2 := by
  induction l1 generalizing l2 with
  | nil =>
    cases l2 with
    | nil => simpa using h
    | cons b bs =>
      simp only [List.nil_append, List.cons_append, List.cons.injEq] at h
      exact absurd (h.1 ▸ List.mem_cons_self b bs) h2
  | cons a as ih =>
    cases l2 with
    | nil =>
      simp only [List.nil_append, List.cons_append, List.cons.injEq] at h
      exact absurd (h.1 ▸ List.mem_cons_self a as) h1
    | cons b bs =>
      simp only [List.cons_append, List.cons.injEq] at h
      obtain ⟨hab, htl⟩ := h
      have h1' : '/' ∉ as := fun hm => h1 (List.mem_cons_of_mem _ hm)
      have h2' : '/' ∉ bs := fun hm => h2 (List.mem_cons_of_mem _ hm)
      obtain ⟨he, hr⟩ := ih h1' h2' htl
      exact ⟨by rw [hab, he], hr⟩

/-- Character-level shape of a resolved document path when the user id and
resource id are separator-free. -/
theorem resolve_document_path_data (k : DocKind) (u i : String)
    (hu : goodSeg u) (hi : goodSeg i) :
    (resolve_document_path defaultConfig k u i).data
      = "/lunar/users/".data
        ++ (u.data ++ ('/' :: ((docKindRoot k).data ++ ('/' :: (i.data ++ ".json".data))))) := by
  have hu' : isAbsolute u = false := isAbsolute_false_of_goodSeg hu
  have hij : isAbsolute (i ++ ".json") = false := isAbsolute_append_false hi
  have hne1 : "/lunar/users" ++ "/" ++ u ≠ "" := by
    apply data_ne_nil_ne_empty
    apply append_data_ne_nil
    apply append_data_ne_nil
    decide
  have hne2 : ∀ r : String, "/lunar/users" ++ "/" ++ u ++ "/" ++ r ≠ "" := by
    intro r
    apply data_ne_nil_ne_empty
    apply append_data_ne_nil
    apply append_data_ne_nil
    apply append_data_ne_nil
    apply append_data_ne_nil
    decide
  cases k
  case datasource =>
    show (pyPathJoin
        (pyPathJoin ""
          (pyPathJoin (pyPathJoin (pyPathJoin "" "/lunar/users") u) "datasources"))
        (i ++ ".json")).data = _
    simp only [pyPathJoin_empty_left]
    rw [pyPathJoin_rel hu' (by decide),
      pyPathJoin_rel (show isAbsolute "datasources" = false by decide) hne1,
      pyPathJoin_rel hij (hne2 "datasources")]
    simp [String.data_append, docKindRoot]
  case llm =>
    show (pyPathJoin
        (pyPathJoin ""
          (pyPathJoin (pyPathJoin (pyPathJoin "" "/lunar/users") u) "llms"))
        (i ++ ".json")).data = _
    simp only [pyPathJoin_empty_left]
    rw [pyPathJoin_rel hu' (by decide),
      pyPathJoin_rel (show isAbsolute "llms" = false by decide) hne1,
      pyPathJoin_rel hij (hne2 "llms")]
    simp [String.data_append, docKindRoot]

theorem string_ext {s t : String} (h : s.data = t.data) : s = t := by
  cases s
  cases t
  simp only at h
  rw [h]

/-- **C1** counterexample: path resolution is *not* injective over arbitrary
string ids.  A resource id beginning with a path separator is treated as an
absolute path by `pathlib.Path`, discarding the user segment entirely, so
two distinct `(user_id, datasource, id)` triples resolve to the same path. -/
theorem c1_counterexample_resolution_not_injective :
    get_datasource_path defaultConfig "u1" "/x" = get_datasource_path defaultConfig "u2" "/x"
      ∧ ("u1" : String) ≠ "u2" := by
  decide

/-- **C1** (amended): resolution is deterministic (it is a pure function of
the triple), and it is injective when restricted to user ids and resource
ids that are nonempty and contain no path separator; for ids containing
separators (or absolute segments) distinct triples can collide. -/
theorem c1_resolution_injective_on_separator_free_ids
    {k1 k2 : DocKind} {u1 u2 i1 i2 : String}
    (hu1 : goodSeg u1) (hu2 : goodSeg u2) (hi1 : goodSeg i1) (hi2 : goodSeg i2)
    (h : resolve_document_path defaultConfig k1 u1 i1
        = resolve_document_path defaultConfig k2 u2 i2) :
    k1 = k2 ∧ u1 = u2 ∧ i1 = i2 := by
  have hd := congrArg String.data h
  rw [resolve_document_path_data k1 u1 i1 hu1 hi1,
      resolve_document_path_data k2 u2 i2 hu2 hi2] at hd
  have hd1 := List.append_cancel_left hd
  obtain ⟨hu, hd2⟩ := noSep_append_sep_inj hu1.2 hu2.2 hd1
  have hr1 : '/' ∉ (docKindRoot k1).data := by cases k1 <;> decide
  have hr2 : '/' ∉ (docKindRoot k2).data := by cases k2 <;> decide
  obtain ⟨hr, hd3⟩ := noSep_append_sep_inj hr1 hr2 hd2
  have hk : k1 = k2 := by
    cases k1 <;> cases k2 <;> first
      | rfl
      | (exfalso; simp [docKindRoot] at hr)
  have hi : i1.data = i2.data := List.append_cancel_right hd3
  exact ⟨hk, string_ext hu, string_ext hi⟩

/-- Concrete instantiation of the amended C1 theorem. -/
theorem c1_resolution_injective_witness :
    DocKind.datasource = DocKind.datasource
      ∧ ("alice" : String) = "alice" ∧ ("ds-1" : String) = "ds-1" :=
  @c1_resolution_injective_on_separator_free_ids
    DocKind.datasource DocKind.datasource "alice" "alice" "ds-1" "ds-1"
    (by decide) (by decide) (by decide) (by decide) rfl

/-! ## Scaffold idempotence (C8) -/

theorem mkdir_true_true (fs : FS) (p : String) :
    mkdir fs p true true = .ok (mkdirF fs p) := by
  unfold mkdir mkdirF
  split <;> simp

theorem touch_true (fs : FS) (p : String) :
    touch fs p true = .ok (touchF fs p) := by
  unfold touch touchF
  split <;> simp

theorem foldlM_mkdir_ok (l : List String) (fs : FS) :
    l.foldlM (fun s p => mkdir s p true true) fs = .ok (l.foldl mkdirF fs) := by
  induction l generalizing fs with
  | nil => rfl
  | cons p l ih =>
    rw [List.foldlM_cons, mkdir_true_true, List.foldl_cons]
    exact ih (mkdirF fs p)

theorem init_user_profile_ok (fs : FS) (u : String) :
    init_user_profile defaultConfig fs u = .ok (initF defaultConfig fs u) := by
  have hst : ¬ (defaultConfig.LUNAR_STORAGE_TYPE ≠ Storage.LOCAL) := by decide
  unfold init_user_profile initF
  rw [if_neg hst, foldlM_mkdir_ok]
  show Except.bind (Except.ok ((scaffold_dir_targets defaultConfig u).foldl mkdirF fs))
      (fun fs1 => touch fs1 (get_user_environment_path defaultConfig u) true) = _
  rw [Except.bind]
  exact touch_true _ _

theorem mkdirF_dirs_subset (fs : FS) (p : String) : fs.dirs ⊆ (mkdirF fs p).dirs := by
  unfold mkdirF
  split
  · exact Finset.Subset.refl _
  · intro x hx
    simp [hx]

theorem mem_mkdirF_self (fs : FS) (p : String) : p ∈ (mkdirF fs p).dirs := by
  unfold mkdirF
  split
  · assumption
  · simp

theorem mkdirF_files (fs : FS) (p : String) : (mkdirF fs p).files = fs.files := by
  unfold mkdirF
  split <;> rfl

theorem foldl_mkdirF_dirs_subset (l : List String) (fs : FS) :
    fs.dirs ⊆ (l.foldl mkdirF fs).dirs := by
  induction l generalizing fs with
  | nil => exact Finset.Subset.refl _
  | cons p l ih =>
    exact (mkdirF_dirs_subset fs p).trans (ih (mkdirF fs p))

theorem mem_foldl_mkdirF (l : List String) (fs : FS) {p : String} (hp : p ∈ l) :
    p ∈ (l.foldl mkdirF fs).dirs := by
  induction l generalizing fs with
  | nil => cases hp
  | cons q l ih =>
    rcases List.mem_cons.mp hp with h | h
    · subst h
      exact foldl_mkdirF_dirs_subset l (mkdirF fs p) (mem_mkdirF_self fs p)
    · exact ih (mkdirF fs q) h

theorem foldl_mkdirF_files (l : List String) (fs : FS) :
    (l.foldl mkdirF fs).files = fs.files := by
  induction l generalizing fs with
  | nil => rfl
  | cons p l ih => simp [List.foldl_cons, ih, mkdirF_files]

theorem foldl_mkdirF_skip (l : List String) (fs : FS)
    (h : ∀ p ∈ l, p ∈ fs.dirs) : l.foldl mkdirF fs = fs := by
  induction l with
  | nil => rfl
  | cons p l ih =>
    have hp : mkdirF fs p = fs := by
      unfold mkdirF
      rw [if_pos (h p (List.mem_cons_self _ _))]
    simp only [List.foldl_cons, hp]
    exact ih (fun q hq => h q (List.mem_cons_of_mem _ hq))

theorem touchF_dirs (fs : FS) (p : String) : (touchF fs p).dirs = fs.dirs := by
  unfold touchF
  split <;> rfl

theorem touchF_lookup_isSome (fs : FS) (p : String) :
    ((touchF fs p).files.lookup p).isSome = true := by
  unfold touchF
  split
  · assumption
  · simp [List.lookup]

theorem touchF_of_present {fs : FS} {p : String}
    (h : (fs.files.lookup p).isSome = true) : touchF fs p = fs := by
  unfold touchF
  rw [if_pos h]

theorem touchF_touchF (fs : FS) (p : String) : touchF (touchF fs p) p = touchF fs p :=
  touchF_of_present (touchF_lookup_isSome fs p)

theorem genInit_mem (l : List String) (env : String) (fs : FS) :
    ∀ p ∈ l, p ∈ (touchF (l.foldl mkdirF fs) env).dirs := by
  intro p hp
  rw [touchF_dirs]
  exact mem_foldl_mkdirF l fs hp

theorem genInit_idem (l : List String) (env : String) (fs : FS) :
    touchF (l.foldl mkdirF (touchF (l.foldl mkdirF fs) env)) env
      = touchF (l.foldl mkdirF fs) env := by
  rw [foldl_mkdirF_skip l _ (genInit_mem l env fs), touchF_touchF]

theorem genInit_prefix_resume (l : List String) (env : String) (fs : FS) (j : Nat) :
    touchF (l.foldl mkdirF ((l.take j).foldl mkdirF fs)) env
      = touchF (l.foldl mkdirF fs) env := by
  have hskip : (l.take j).foldl mkdirF ((l.take j).foldl mkdirF fs) =
      (l.take j).foldl mkdirF fs :=
    foldl_mkdirF_skip _ _ (fun p hp => mem_foldl_mkdirF _ fs hp)
  have h2 : l.foldl mkdirF ((l.take j).foldl mkdirF fs) = l.foldl mkdirF fs :=
    calc l.foldl mkdirF ((l.take j).foldl mkdirF fs)
        = (l.take j ++ l.drop j).foldl mkdirF ((l.take j).foldl mkdirF fs) := by
          rw [List.take_append_drop]
      _ = (l.drop j).foldl mkdirF
            ((l.take j).foldl mkdirF ((l.take j).foldl mkdirF fs)) := by
          rw [List.foldl_append]
      _ = (l.drop j).foldl mkdirF ((l.take j).foldl mkdirF fs) := by rw [hskip]
      _ = (l.take j ++ l.drop j).foldl mkdirF fs := by rw [List.foldl_append]
      _ = l.foldl mkdirF fs := by rw [List.take_append_drop]
  rw [h2]

/-- **C8**: `init_user_profile` (the spec's `ensure_user_scaffold`) is
idempotent.  It never errors under local storage and produces the normal
form `initF`; running it again on its own result changes nothing; and
re-invocation from any partially-created state (a prefix of the mkdir
sequence) completes to the very same final state without erroring on the
already-created directories. -/
theorem c8_init_user_profile_idempotent (fs : FS) (u : String) :
    init_user_profile defaultConfig fs u = .ok (initF defaultConfig fs u)
    ∧ initF defaultConfig (initF defaultConfig fs u) u = initF defaultConfig fs u
    ∧ ∀ j, initF defaultConfig
        (((scaffold_dir_targets defaultConfig u).take j).foldl mkdirF fs) u
        = initF defaultConfig fs u := by
  refine ⟨init_user_profile_ok fs u, ?_, fun j => ?_⟩
  · unfold initF
    exact genInit_idem _ _ _
  · unfold initF
    exact genInit_prefix_resume _ _ _ j

/-! ## `get_user_workflow_path` without a user id (C10) -/

/-- **C10** counterexample: when no user's workflow root contains the
workflow directory, `get_user_workflow_path` does not return a path whose
user segment is the literal string `"None"`; it raises `TypeError`
(`pathlib.Path` rejects `None` as a component). -/
theorem c10_counterexample_no_candidate_raises :
    get_user_workflow_path defaultConfig [] "wf1" none = .error PyError.typeError
    ∧ get_user_workflow_path defaultConfig [] "wf1" none
        ≠ .ok "/lunar/users/None/workflows/wf1" := by
  decide

/-- **C10** (amended): called without a `user_id`,
`get_user_workflow_path` resolves to the workflow directory of the first
user (in directory-enumeration order) whose workflow root contains a
directory named `workflow_id`; when no such directory exists it raises
`TypeError` instead of returning a path with user segment `"None"`. -/
theorem c10_get_user_workflow_path_first_match (dirs : List String) (wid : String) :
    (∀ c rest, dirs.filter (fun d => workflowDirMatch defaultConfig d wid) = c :: rest →
      get_user_workflow_path defaultConfig dirs wid none
        = .ok (pathStr [get_user_workflow_root defaultConfig (parentParentName c), wid]))
    ∧ (dirs.filter (fun d => workflowDirMatch defaultConfig d wid) = [] →
      get_user_workflow_path defaultConfig dirs wid none = .error PyError.typeError) := by
  constructor
  · intro c rest hc
    unfold get_user_workflow_path
    rw [hc]
  · intro hc
    unfold get_user_workflow_path
    rw [hc]

/-- Concrete instantiation of the amended C10 theorem. -/
theorem c10_get_user_workflow_path_witness :
    get_user_workflow_path defaultConfig ["/lunar/users/u1/workflows/wf1"] "wf1" none
      = .ok "/lunar/users/u1/workflows/wf1" := by
  have h := (c10_get_user_workflow_path_first_match
      ["/lunar/users/u1/workflows/wf1"] "wf1").1
    "/lunar/users/u1/workflows/wf1" [] (by decide)
  exact h.trans (by decide)

/-! ## `delete` semantics (C6) -/

/-- **C6** counterexample: `delete` has no `missing_ok` parameter; on an
absent path it raises `NotFoundError` unconditionally (and in particular
never returns `false`). -/
theorem c6_counterexample_delete_missing_always_raises :
    delete defaultConfig FS.empty "/lunar/users/u1/datasources/x.json"
      = .error PyError.notFoundError := by
  decide

/-- **C6** (amended): `delete(path)` takes no `missing_ok` flag.  It
returns `true` on success (existing directory subtree removed or file
unlinked), raises `NotFoundError` whenever the resolved path is absent,
and never returns `false`. -/
theorem c6_delete_semantics (fs : FS) (path rp : String)
    (hres : resolve_path defaultConfig.LUNAR_STORAGE_BASE_PATH path = .ok rp) :
    (rp ∉ fs.dirs → fs.files.lookup rp = none →
      delete defaultConfig fs path = .error PyError.notFoundError)
    ∧ ((rp ∈ fs.dirs ∨ (fs.files.lookup rp).isSome) →
      ∃ fs', delete defaultConfig fs path = .ok (true, fs'))
    ∧ (∀ b fs', delete defaultConfig fs path = .ok (b, fs') → b = true) := by
  have hst : defaultConfig.LUNAR_STORAGE_TYPE = Storage.LOCAL := rfl
  refine ⟨?_, ?_, ?_⟩
  · intro hd hf
    simp [delete, hres, hd, hf, hst]
  · have hdirCase : rp ∈ fs.dirs →
        delete defaultConfig fs path
          = .ok (true, ⟨fs.dirs.filter (fun d => ¬ underPath rp d),
              fs.files.filter (fun pc => ¬ underPath rp pc.1)⟩) := by
      intro hd
      simp only [delete, hres]
      rw [if_pos hst, if_pos hd]
    rintro (hd | hf)
    · exact ⟨_, hdirCase hd⟩
    · by_cases hd : rp ∈ fs.dirs
      · exact ⟨_, hdirCase hd⟩
      · refine ⟨⟨fs.dirs, fs.files.filter (fun pc => pc.1 ≠ rp)⟩, ?_⟩
        simp only [delete, hres]
        rw [if_pos hst, if_neg hd, if_pos hf]
  · intro b fs' h
    by_cases hd : rp ∈ fs.dirs
    · simp [delete, hres, hd, hst] at h
      exact h.1
    · by_cases hf : (fs.files.lookup rp).isSome
      · simp [delete, hres, hd, hf, hst] at h
        exact h.1
      · simp [delete, hres, hd, hf, hst] at h

/-- Concrete instantiation of the amended C6 theorem: deleting an existing
file succeeds with result `true`. -/
theorem c6_delete_semantics_witness :
    ∃ fs', delete defaultConfig ⟨∅, [("/lunar/users/u1/datasources/x.json", "{}")]⟩
      "/lunar/users/u1/datasources/x.json" = .ok (true, fs') :=
  (c6_delete_semantics ⟨∅, [("/lunar/users/u1/datasources/x.json", "{}")]⟩
    "/lunar/users/u1/datasources/x.json" "/lunar/users/u1/datasources/x.json"
    (by decide)).2.1 (Or.inr (by decide))

/-! ## Path validation before I/O (C2) -/

/-- **C2**: every storage operation — write (`write_path`,
`save_to_storage_as_json`), read (`read_path`, `get_file_by_path`,
`get_from_storage_as_dict`), list (`get_all_files`, `get_all_as_dict`),
`delete`, and `exists` — invoked with a path whose resolution lies outside
the configured base root fails with `InvalidPathError` and performs no
I/O: the result is the error for *every* filesystem state (quantified
`fs`), and no operation returns a changed state. -/
theorem c2_storage_ops_validate_path (fs : FS) (path content : String)
    (d : JValue) (eps : List String)
    (h : underPath defaultConfig.LUNAR_STORAGE_BASE_PATH
      (normalizePath (pyPathJoin defaultConfig.LUNAR_STORAGE_BASE_PATH path)) = false) :
    write_path defaultConfig.LUNAR_STORAGE_BASE_PATH fs path content
        = .error PyError.invalidPathError
    ∧ read_path defaultConfig.LUNAR_STORAGE_BASE_PATH fs path
        = .error PyError.invalidPathError
    ∧ get_file_by_path defaultConfig fs path = .error PyError.invalidPathError
    ∧ get_all_files defaultConfig fs path = .error PyError.invalidPathError
    ∧ exists_op defaultConfig fs path = .error PyError.invalidPathError
    ∧ delete defaultConfig fs path = .error PyError.invalidPathError
    ∧ save_to_storage_as_json defaultConfig fs path d = .error PyError.invalidPathError
    ∧ get_from_storage_as_dict defaultConfig fs path = .error PyError.invalidPathError
    ∧ get_all_as_dict defaultConfig fs path eps = .error PyError.invalidPathError := by
  have hres : resolve_path defaultConfig.LUNAR_STORAGE_BASE_PATH path
      = .error PyError.invalidPathError := by
    unfold resolve_path
    rw [if_neg (by simp [h])]
  refine ⟨?_, ?_, ?_, ?_, ?_, ?_, ?_, ?_, ?_⟩ <;>
    simp [write_path, read_path, get_file_by_path, get_all_files, exists_op, delete,
      save_to_storage_as_json, get_from_storage_as_dict, get_all_as_dict, hres]

/-- Concrete instantiation of the C2 theorem: a `..`-traversal path
escaping the base root is rejected by every operation. -/
theorem c2_storage_ops_validate_path_witness :
    delete defaultConfig FS.empty "../../etc/passwd" = .error PyError.invalidPathError :=
  (c2_storage_ops_validate_path FS.empty "../../etc/passwd" "" JValue.null []
    (by decide)).2.2.2.2.2.1

/-! ## Whitespace lemmas -/

theorem skipWs_cons_of_ws {c : Char} (cs : List Char)
    (h : c = ' ' ∨ c = '\n' ∨ c = '\t' ∨ c = '\r') :
    skipWs (c :: cs) = skipWs cs := by
  simp only [skipWs]
  rw [if_pos h]

theorem skipWs_cons_of_not_ws {c : Char} (cs : List Char)
    (h : ¬(c = ' ' ∨ c = '\n' ∨ c = '\t' ∨ c = '\r')) :
    skipWs (c :: cs) = c :: cs := by
  simp only [skipWs]
  rw [if_neg h]

theorem skipWs_replicate_space (k : Nat) (cs : List Char) :
    skipWs (List.replicate k ' ' ++ cs) = skipWs cs := by
  induction k with
  | zero => rfl
  | succ k ih =>
    rw [List.replicate_succ, List.cons_append, skipWs_cons_of_ws _ (Or.inl rfl), ih]

theorem skipWs_indent (n : Nat) (cs : List Char) :
    skipWs (indentChars n ++ cs) = skipWs cs :=
  skipWs_replicate_space (2 * n) cs

theorem skipWs_idem (cs : List Char) : skipWs (skipWs cs) = skipWs cs := by
  induction cs with
  | nil => rfl
  | cons c cs ih =>
    by_cases h : c = ' ' ∨ c = '\n' ∨ c = '\t' ∨ c = '\r'
    · rw [skipWs_cons_of_ws _ h, ih]
    · rw [skipWs_cons_of_not_ws _ h, skipWs_cons_of_not_ws _ h]

/-! ## Digit and number lemmas -/

theorem digitChar_isDigit : ∀ m, m < 10 → (digitChar m).isDigit = true := by decide

theorem digitChar_toNat : ∀ m, m < 10 → (digitChar m).toNat = 48 + m := by decide

theorem natDigits_ne_nil (fuel n : Nat) (h : 0 < fuel) : natDigits fuel n ≠ [] := by
  cases fuel with
  | zero => omega
  | succ fuel =>
    unfold natDigits
    split
    · simp
    · simp

theorem natDigits_all_digits (fuel : Nat) :
    ∀ n, ∀ c ∈ natDigits fuel n, c.isDigit = true := by
  induction fuel with
  | zero => intro n c hc; cases hc
  | succ fuel ih =>
    intro n c hc
    unfold natDigits at hc
    by_cases h : n < 10
    · rw [if_pos h] at hc
      simp at hc
      rw [hc]
      exact digitChar_isDigit n h
    · rw [if_neg h] at hc
      rcases List.mem_append.mp hc with h1 | h1
      · exact ih _ c h1
      · simp at h1
        rw [h1]
        exact digitChar_isDigit _ (Nat.mod_lt n (by omega))

theorem natDigits_fuel_irrel (n : Nat) :
    ∀ f g, n < f → n < g → natDigits f n = natDigits g n := by
  induction n using Nat.strong_induction_on with
  | _ n ih =>
    intro f g hf hg
    cases f with
    | zero => omega
    | succ f =>
      cases g with
      | zero => omega
      | succ g =>
        unfold natDigits
        by_cases h : n < 10
        · rw [if_pos h, if_pos h]
        · rw [if_neg h, if_neg h]
          have hd : n / 10 < n := Nat.div_lt_self (by omega) (by omega)
          rw [ih (n / 10) hd f g (by omega) (by omega)]

theorem foldl_digitStep_append (l1 l2 : List Char) (a : Nat) :
    (l1 ++ l2).foldl (fun a c => a * 10 + (c.toNat - 48)) a
      = l2.foldl (fun a c => a * 10 + (c.toNat - 48)) (l1.foldl (fun a c => a * 10 + (c.toNat - 48)) a) := by
  rw [List.foldl_append]

theorem foldl_natDigits (n : Nat) :
    ∀ a, (natDigits (n + 1) n).foldl (fun a c => a * 10 + (c.toNat - 48)) a
      = a * 10 ^ (natDigits (n + 1) n).length + n := by
  induction n using Nat.strong_induction_on with
  | _ n ih =>
    intro a
    by_cases h : n < 10
    · unfold natDigits
      rw [if_pos h]
      simp [digitChar_toNat n h]
    · have hd : n / 10 < n := Nat.div_lt_self (by omega) (by omega)
      have hstep : natDigits (n + 1) n
          = natDigits (n / 10 + 1) (n / 10) ++ [digitChar (n % 10)] := by
        conv_lhs => unfold natDigits
        rw [if_neg h, natDigits_fuel_irrel (n / 10) n (n / 10 + 1) (by omega) (by omega)]
      rw [hstep, foldl_digitStep_append, ih (n / 10) hd a]
      simp only [List.foldl_cons, List.foldl_nil, List.length_append, List.length_singleton]
      rw [digitChar_toNat _ (Nat.mod_lt n (by omega))]
      have : 48 + n % 10 - 48 = n % 10 := by omega
      rw [this, pow_succ]
      have hmod := Nat.div_add_mod n 10
      ring_nf
      omega

/-- The first element of `rest` (if any) would not extend a number. -/
def numSafe : List Char → Prop
  | [] => True
  | c :: _ => c.isDigit = false

theorem takeWhile_append_all {p : Char → Bool} (l rest : List Char)
    (h : ∀ c ∈ l, p c = true) (h3 : ∀ c, rest.head? = some c → p c = false) :
    (l ++ rest).takeWhile p = l := by
  induction l with
  | nil =>
    cases rest with
    | nil => rfl
    | cons c cs => simp [List.takeWhile_cons, h3 c rfl]
  | cons c cs ih =>
    simp only [List.cons_append, List.takeWhile_cons, h c (List.mem_cons_self _ _), if_true]
    rw [ih (fun d hd => h d (List.mem_cons_of_mem _ hd))]

theorem parseDigits_natDigits (n : Nat) (rest : List Char) (hrest : numSafe rest) :
    parseDigits (natDigits (n + 1) n ++ rest) = some (n, rest) := by
  unfold parseDigits
  have hall := natDigits_all_digits (n + 1) n
  have htw : (natDigits (n + 1) n ++ rest).takeWhile (fun c => c.isDigit) = natDigits (n + 1) n := by
    apply takeWhile_append_all _ _ hall
    intro c hc
    cases rest with
    | nil => cases hc
    | cons d ds =>
      simp at hc
      rw [← hc]
      exact hrest
  rw [htw]
  rw [if_neg (by simp [natDigits_ne_nil (n + 1) n (by omega)])]
  rw [show (natDigits (n + 1) n ++ rest).drop (natDigits (n + 1) n).length = rest from
    List.drop_left _ _]
  rw [foldl_natDigits n 0]
  simp

theorem parseNumber_serInt (i : Int) (rest : List Char) (hrest : numSafe rest) :
    parseNumber (serInt i ++ rest) = some (i, rest) := by
  cases i with
  | ofNat n =>
    show parseNumber (natDigits (n + 1) n ++ rest) = _
    obtain ⟨d, ds, hd⟩ : ∃ d ds, natDigits (n + 1) n = d :: ds := by
      cases hnd : natDigits (n + 1) n with
      | nil => exact absurd hnd (natDigits_ne_nil _ _ (by omega))
      | cons d ds => exact ⟨d, ds, rfl⟩
    have hdig : d.isDigit = true := natDigits_all_digits (n + 1) n d (by rw [hd]; simp)
    have hne : d ≠ '-' := by
      intro he
      rw [he] at hdig
      simp [Char.isDigit] at hdig
    rw [hd]
    simp only [List.cons_append, parseNumber]
    rw [if_neg hne, ← List.cons_append, ← hd, parseDigits_natDigits n rest hrest]
    rfl
  | negSucc m =>
    show parseNumber ('-' :: (natDigits (m + 2) (m + 1) ++ rest)) = _
    simp only [parseNumber]
    rw [if_pos (trivial : True),
      natDigits_fuel_irrel (m + 1) (m + 2) (m + 1 + 1) (by omega) (by omega),
      parseDigits_natDigits (m + 1) rest hrest]
    simp [Int.negSucc_eq]

/-! ## String escaping lemmas -/

theorem char_not_surrogate (c : Char) : c.toNat < 55296 ∨ 57343 < c.toNat := by
  have h := c.valid
  unfold UInt32.isValidChar Nat.isValidChar at h
  have he : c.toNat = c.val.toNat := rfl
  rcases h with h | h
  · left
    omega
  · right
    omega

theorem hexVal_hexDigitChar : ∀ d, d < 16 → hexVal (hexDigitChar d) = some d := by decide

theorem decodeHex4_hexQuad (n : Nat) (rest : List Char) (h : n < 65536) :
    decodeHex4 (hexQuad n ++ rest) = some (n, rest) := by
  have e1 := hexVal_hexDigitChar (n / 4096 % 16) (Nat.mod_lt _ (by omega))
  have e2 := hexVal_hexDigitChar (n / 256 % 16) (Nat.mod_lt _ (by omega))
  have e3 := hexVal_hexDigitChar (n / 16 % 16) (Nat.mod_lt _ (by omega))
  have e4 := hexVal_hexDigitChar (n % 16) (Nat.mod_lt _ (by omega))
  show decodeHex4 (hexDigitChar (n / 4096 % 16) :: hexDigitChar (n / 256 % 16)
    :: hexDigitChar (n / 16 % 16) :: hexDigitChar (n % 16) :: rest) = _
  simp only [decodeHex4, e1, e2, e3, e4]
  have : 4096 * (n / 4096 % 16) + 256 * (n / 256 % 16) + 16 * (n / 16 % 16) + n % 16 = n := by
    omega
  rw [this]

theorem escapeChar_length_pos (c : Char) : 1 ≤ (escapeChar c).length := by
  unfold escapeChar
  repeat' split
  all_goals simp [hexQuad]

theorem escapeChars_length (cs : List Char) : cs.length + 1 ≤ (escapeChars cs).length := by
  induction cs with
  | nil => simp [escapeChars]
  | cons c cs ih =>
    simp only [escapeChars, List.length_append, List.length_cons]
    have := escapeChar_length_pos c
    omega

theorem parseStringBody_escapeChars :
    ∀ cs fuel rest, (∀ c ∈ cs, c.toNat < 65536) → cs.length + 1 ≤ fuel →
      parseStringBody fuel (escapeChars cs ++ rest) = some (cs, rest) := by
  intro cs
  induction cs with
  | nil =>
    intro fuel rest _ hf
    cases fuel with
    | zero => omega
    | succ g =>
      show parseStringBody (g + 1) ('"' :: rest) = _
      simp [parseStringBody]
  | cons c cs ih =>
    intro fuel rest hcanon hf
    cases fuel with
    | zero => simp at hf
    | succ g =>
      have hcs : ∀ d ∈ cs, d.toNat < 65536 := fun d hd => hcanon d (List.mem_cons_of_mem _ hd)
      have hg : cs.length + 1 ≤ g := by simp at hf; omega
      have hihg := ih g rest hcs hg
      have heq : escapeChars (c :: cs) ++ rest = escapeChar c ++ (escapeChars cs ++ rest) := by
        simp [escapeChars]
      rw [heq]
      by_cases h1 : c = '"'
      · subst h1
        simp [escapeChar, parseStringBody, simpleUnescape, hihg]
      · by_cases h2 : c = '\\'
        · subst h2
          simp [escapeChar, parseStringBody, simpleUnescape, hihg]
        · by_cases h3 : c = '\x08'
          · subst h3
            simp [escapeChar, parseStringBody, simpleUnescape, hihg]
          · by_cases h4 : c = '\x0c'
            · subst h4
              simp [escapeChar, parseStringBody, simpleUnescape, hihg]
            · by_cases h5 : c = '\n'
              · subst h5
                simp [escapeChar, parseStringBody, simpleUnescape, hihg]
              · by_cases h6 : c = '\r'
                · subst h6
                  simp [escapeChar, parseStringBody, simpleUnescape, hihg]
                · by_cases h7 : c = '\t'
                  · subst h7
                    simp [escapeChar, parseStringBody, simpleUnescape, hihg]
                  · by_cases h8 : c.toNat < 32 ∨ 126 < c.toNat
                    · have hlt : c.toNat < 65536 := hcanon c (List.mem_cons_self _ _)
                      have hesc : escapeChar c = '\\' :: 'u' :: hexQuad c.toNat := by
                        unfold escapeChar
                        rw [if_neg h1, if_neg h2, if_neg h3, if_neg h4, if_neg h5,
                          if_neg h6, if_neg h7, if_pos h8, if_pos hlt]
                      rw [hesc]
                      have hs := char_not_surrogate c
                      show parseStringBody (g + 1)
                        ('\\' :: 'u' :: (hexQuad c.toNat ++ (escapeChars cs ++ rest))) = _
                      simp only [parseStringBody]
                      rw [if_neg (by decide : ¬('\\' : Char) = '"'),
                        decodeHex4_hexQuad _ _ hlt]
                      simp only [Option.bind]
                      rw [if_neg (by omega : ¬(55296 ≤ c.toNat ∧ c.toNat < 56320)),
                        if_neg (by omega : ¬(56320 ≤ c.toNat ∧ c.toNat < 57344)),
                        hihg]
                      simp [Char.ofNat_toNat]
                    · have hesc : escapeChar c = [c] := by
                        unfold escapeChar
                        rw [if_neg h1, if_neg h2, if_neg h3, if_neg h4, if_neg h5,
                          if_neg h6, if_neg h7, if_neg h8]
                      rw [hesc]
                      show parseStringBody (g + 1) (c :: (escapeChars cs ++ rest)) = _
                      simp only [parseStringBody]
                      rw [if_neg h1, if_neg h2, hihg]
                      rfl

/-! ## Serializer head-character lemmas -/

theorem string_mk_data (s : String) : String.mk s.data = s := by
  cases s
  rfl

theorem stripLit_self (ps cs : List Char) : stripLit ps (ps ++ cs) = some cs := by
  induction ps with
  | nil => rfl
  | cons p ps ih =>
    simp only [List.cons_append, stripLit, if_pos rfl]
    exact ih

theorem isDigit_facts (c : Char) (h : c.isDigit = true) :
    ¬(c = ' ' ∨ c = '\n' ∨ c = '\t' ∨ c = '\r')
    ∧ c ≠ ']' ∧ c ≠ '}' ∧ c ≠ 'n' ∧ c ≠ 't' ∧ c ≠ 'f' ∧ c ≠ '"' ∧ c ≠ '[' ∧ c ≠ '{' := by
  refine ⟨?_, ?_, ?_, ?_, ?_, ?_, ?_, ?_, ?_⟩ <;>
    first
      | (rintro (he | he | he | he) <;> (rw [he] at h; exact absurd h (by decide)))
      | (intro he; rw [he] at h; exact absurd h (by decide))

/-- Every serialized value starts with a character that is not whitespace
and not a closing bracket. -/
theorem serVal_cons (ind : Nat) (v : JValue) :
    ∃ c rest, serVal ind v = c :: rest
      ∧ ¬(c = ' ' ∨ c = '\n' ∨ c = '\t' ∨ c = '\r') ∧ c ≠ ']' ∧ c ≠ '}' := by
  cases v with
  | null => exact ⟨'n', _, rfl, by decide, by decide, by decide⟩
  | bool b =>
    cases b with
    | false => exact ⟨'f', _, rfl, by decide, by decide, by decide⟩
    | true => exact ⟨'t', _, rfl, by decide, by decide, by decide⟩
  | num i =>
    cases i with
    | ofNat n =>
      obtain ⟨d, ds, hd⟩ : ∃ d ds, natDigits (n + 1) n = d :: ds := by
        cases hnd : natDigits (n + 1) n with
        | nil => exact absurd hnd (natDigits_ne_nil _ _ (by omega))
        | cons d ds => exact ⟨d, ds, rfl⟩
      have hdig : d.isDigit = true := natDigits_all_digits (n + 1) n d (by rw [hd]; simp)
      have hfacts := isDigit_facts d hdig
      exact ⟨d, ds, hd, hfacts.1, hfacts.2.1, hfacts.2.2.1⟩
    | negSucc m => exact ⟨'-', _, rfl, by decide, by decide, by decide⟩
  | str st => exact ⟨'"', _, rfl, by decide, by decide, by decide⟩
  | arr items => exact ⟨'[', _, rfl, by decide, by decide, by decide⟩
  | obj mems => exact ⟨'{', _, rfl, by decide, by decide, by decide⟩

theorem serVal_length_pos (ind : Nat) (v : JValue) : 1 ≤ (serVal ind v).length := by
  obtain ⟨c, rest, hc, -⟩ := serVal_cons ind v
  rw [hc]
  simp

theorem skipWs_serVal_append (ind : Nat) (v : JValue) (rest : List Char) :
    skipWs (serVal ind v ++ rest) = serVal ind v ++ rest := by
  obtain ⟨c, r, hc, hws, -⟩ := serVal_cons ind v
  rw [hc, List.cons_append, skipWs_cons_of_not_ws _ hws]

/-! ## Parser whitespace-invariance -/

theorem parseVal_skipWs (fuel : Nat) (cs : List Char) :
    parseVal fuel (skipWs cs) = parseVal fuel cs := by
  cases fuel with
  | zero => rfl
  | succ g => simp only [parseVal, skipWs_idem]

theorem parseArrItems_skipWs (fuel : Nat) (cs : List Char) :
    parseArrItems fuel (skipWs cs) = parseArrItems fuel cs := by
  cases fuel with
  | zero => rfl
  | succ g => simp only [parseArrItems, parseVal_skipWs]

theorem parseObjItems_skipWs (fuel : Nat) (cs : List Char) :
    parseObjItems fuel (skipWs cs) = parseObjItems fuel cs := by
  cases fuel with
  | zero => rfl
  | succ g => simp only [parseObjItems, skipWs_idem]

theorem skipWs_item (ind : Nat) (v : JValue) (tail : List Char) :
    skipWs ('\n' :: (indentChars ind ++ (serVal ind v ++ tail))) = serVal ind v ++ tail := by
  rw [skipWs_cons_of_ws _ (Or.inr (Or.inl rfl)), skipWs_indent, skipWs_serVal_append]

theorem skipWs_serStr_append (k : String) (tail : List Char) :
    skipWs (serStr k ++ tail) = serStr k ++ tail := by
  show skipWs ('"' :: (escapeChars k.data ++ tail)) = '"' :: (escapeChars k.data ++ tail)
  rw [skipWs_cons_of_not_ws _ (by decide)]

/-- One-step shape of `parseVal` on a non-whitespace head. -/
theorem parseVal_succ_cons (g : Nat) (c : Char) (cs1 : List Char)
    (hws : ¬(c = ' ' ∨ c = '\n' ∨ c = '\t' ∨ c = '\r')) :
    parseVal (g + 1) (c :: cs1) =
      (if c = 'n' then (stripLit ['u', 'l', 'l'] cs1).map (fun r => (JValue.null, r))
      else if c = 't' then (stripLit ['r', 'u', 'e'] cs1).map (fun r => (JValue.bool true, r))
      else if c = 'f' then
        (stripLit ['a', 'l', 's', 'e'] cs1).map (fun r => (JValue.bool false, r))
      else if c = '"' then
        (parseStringBody (cs1.length + 1) cs1).map (fun p => (JValue.str (String.mk p.1), p.2))
      else if c = '[' then
        match skipWs cs1 with
        | [] => none
        | c2 :: cs2 =>
          if c2 = ']' then some (JValue.arr .nil, cs2)
          else (parseArrItems g (c2 :: cs2)).map (fun p => (JValue.arr p.1, p.2))
      else if c = '{' then
        match skipWs cs1 with
        | [] => none
        | c2 :: cs2 =>
          if c2 = '}' then some (JValue.obj .nil, cs2)
          else (parseObjItems g (c2 :: cs2)).map (fun p => (JValue.obj p.1, p.2))
      else (parseNumber (c :: cs1)).map (fun p => (JValue.num p.1, p.2))) := by
  conv_lhs => rw [parseVal]
  rw [skipWs_cons_of_not_ws _ hws]

theorem parseArrItems_succ (g : Nat) (cs : List Char) :
    parseArrItems (g + 1) cs =
      (match parseVal g cs with
      | none => none
      | some (v, r) =>
        match skipWs r with
        | [] => none
        | c :: r2 =>
          if c = ',' then
            match parseArrItems g r2 with
            | some (vs, r3) => some (JItems.cons v vs, r3)
            | none => none
          else if c = ']' then some (JItems.cons v .nil, r2)
          else none) := by
  rw [parseArrItems]

theorem parseObjItems_succ (g : Nat) (cs : List Char) :
    parseObjItems (g + 1) cs =
      (match skipWs cs with
      | [] => none
      | c :: cs1 =>
        if c = '"' then
          match parseStringBody (cs1.length + 1) cs1 with
          | none => none
          | some (k, r1) =>
            match skipWs r1 with
            | [] => none
            | c2 :: r2 =>
              if c2 = ':' then
                match parseVal g r2 with
                | none => none
                | some (v, r3) =>
                  match skipWs r3 with
                  | [] => none
                  | c3 :: r4 =>
                    if c3 = ',' then
                      match parseObjItems g r4 with
                      | some (ms, r5) => some (JMems.cons (String.mk k) v ms, r5)
                      | none => none
                    else if c3 = '}' then some (JMems.cons (String.mk k) v .nil, r4)
                    else none
              else none
        else none) := by
  rw [parseObjItems]

/-! ## Match-step lemmas (each is definitional) -/

theorem parseVal_arrBranch_cons (g : Nat) (c2 : Char) (cs2 : List Char) :
    (match c2 :: cs2 with
     | [] => (none : Option (JValue × List Char))
     | c2 :: cs2 =>
       if c2 = ']' then some (JValue.arr .nil, cs2)
       else (parseArrItems g (c2 :: cs2)).map (fun p => (JValue.arr p.1, p.2)))
    = (if c2 = ']' then some (JValue.arr .nil, cs2)
      else (parseArrItems g (c2 :: cs2)).map (fun p => (JValue.arr p.1, p.2))) := rfl

theorem parseVal_objBranch_cons (g : Nat) (c2 : Char) (cs2 : List Char) :
    (match c2 :: cs2 with
     | [] => (none : Option (JValue × List Char))
     | c2 :: cs2 =>
       if c2 = '}' then some (JValue.obj .nil, cs2)
       else (parseObjItems g (c2 :: cs2)).map (fun p => (JValue.obj p.1, p.2)))
    = (if c2 = '}' then some (JValue.obj .nil, cs2)
      else (parseObjItems g (c2 :: cs2)).map (fun p => (JValue.obj p.1, p.2))) := rfl

theorem parseArrItems_afterVal (g : Nat) (v : JValue) (r : List Char) :
    (match (some (v, r) : Option (JValue × List Char)) with
     | none => none
     | some (v, r) =>
       match skipWs r with
       | [] => none
       | c :: r2 =>
         if c = ',' then
           match parseArrItems g r2 with
           | some (vs, r3) => some (JItems.cons v vs, r3)
           | none => none
         else if c = ']' then some (JItems.cons v .nil, r2)
         else none)
    = (match skipWs r with
      | [] => none
      | c :: r2 =>
        if c = ',' then
          match parseArrItems g r2 with
          | some (vs, r3) => some (JItems.cons v vs, r3)
          | none => none
        else if c = ']' then some (JItems.cons v .nil, r2)
        else none) := rfl

theorem parseArrItems_sepCons (g : Nat) (v : JValue) (c : Char) (r2 : List Char) :
    (match c :: r2 with
     | [] => (none : Option (JItems × List Char))
     | c :: r2 =>
       if c = ',' then
         match parseArrItems g r2 with
         | some (vs, r3) => some (JItems.cons v vs, r3)
         | none => none
       else if c = ']' then some (JItems.cons v .nil, r2)
       else none)
    = (if c = ',' then
        match parseArrItems g r2 with
        | some (vs, r3) => some (JItems.cons v vs, r3)
        | none => none
      else if c = ']' then some (JItems.cons v .nil, r2)
      else none) := rfl

theorem parseArrItems_afterRec (v : JValue) (vs : JItems) (r3 : List Char) :
    (match (some (vs, r3) : Option (JItems × List Char)) with
     | some (vs, r3) => some (JItems.cons v vs, r3)
     | none => none)
    = some (JItems.cons v vs, r3) := rfl

theorem parseObjItems_keyCons (g : Nat) (c : Char) (cs1 : List Char) :
    (match c :: cs1 with
     | [] => (none : Option (JMems × List Char))
     | c :: cs1 =>
       if c = '"' then
         match parseStringBody (cs1.length + 1) cs1 with
         | none => none
         | some (k, r1) =>
           match skipWs r1 with
           | [] => none
           | c2 :: r2 =>
             if c2 = ':' then
               match parseVal g r2 with
               | none => none
               | some (v, r3) =>
                 match skipWs r3 with
                 | [] => none
                 | c3 :: r4 =>
                   if c3 = ',' then
                     match parseObjItems g r4 with
                     | some (ms, r5) => some (JMems.cons (String.mk k) v ms, r5)
                     | none => none
                   else if c3 = '}' then some (JMems.cons (String.mk k) v .nil, r4)
                   else none
             else none
       else none)
    = (if c = '"' then
        match parseStringBody (cs1.length + 1) cs1 with
        | none => none
        | some (k, r1) =>
          match skipWs r1 with
          | [] => none
          | c2 :: r2 =>
            if c2 = ':' then
              match parseVal g r2 with
              | none => none
              | some (v, r3) =>
                match skipWs r3 with
                | [] => none
                | c3 :: r4 =>
                  if c3 = ',' then
                    match parseObjItems g r4 with
                    | some (ms, r5) => some (JMems.cons (String.mk k) v ms, r5)
                    | none => none
                  else if c3 = '}' then some (JMems.cons (String.mk k) v .nil, r4)
                  else none
            else none
      else none) := rfl

theorem parseObjItems_afterKey (g : Nat) (k r1 : List Char) :
    (match (some (k, r1) : Option (List Char × List Char)) with
     | none => none
     | some (k, r1) =>
       match skipWs r1 with
       | [] => none
       | c2 :: r2 =>
         if c2 = ':' then
           match parseVal g r2 with
           | none => none
           | some (v, r3) =>
             match skipWs r3 with
             | [] => none
             | c3 :: r4 =>
               if c3 = ',' then
                 match parseObjItems g r4 with
                 | some (ms, r5) => some (JMems.cons (String.mk k) v ms, r5)
                 | none => none
               else if c3 = '}' then some (JMems.cons (String.mk k) v .nil, r4)
               else none
         else none)
    = (match skipWs r1 with
      | [] => none
      | c2 :: r2 =>
        if c2 = ':' then
          match parseVal g r2 with
          | none => none
          | some (v, r3) =>
            match skipWs r3 with
            | [] => none
            | c3 :: r4 =>
              if c3 = ',' then
                match parseObjItems g r4 with
                | some (ms, r5) => some (JMems.cons (String.mk k) v ms, r5)
                | none => none
              else if c3 = '}' then some (JMems.cons (String.mk k) v .nil, r4)
              else none
        else none) := rfl

theorem parseObjItems_colonCons (g : Nat) (k : List Char) (c2 : Char) (r2 : List Char) :
    (match c2 :: r2 with
     | [] => (none : Option (JMems × List Char))
     | c2 :: r2 =>
       if c2 = ':' then
         match parseVal g r2 with
         | none => none
         | some (v, r3) =>
           match skipWs r3 with
           | [] => none
           | c3 :: r4 =>
             if c3 = ',' then
               match parseObjItems g r4 with
               | some (ms, r5) => some (JMems.cons (String.mk k) v ms, r5)
               | none => none
             else if c3 = '}' then some (JMems.cons (String.mk k) v .nil, r4)
             else none
       else none)
    = (if c2 = ':' then
        match parseVal g r2 with
        | none => none
        | some (v, r3) =>
          match skipWs r3 with
          | [] => none
          | c3 :: r4 =>
            if c3 = ',' then
              match parseObjItems g r4 with
              | some (ms, r5) => some (JMems.cons (String.mk k) v ms, r5)
              | none => none
            else if c3 = '}' then some (JMems.cons (String.mk k) v .nil, r4)
            else none
      else none) := rfl

theorem parseObjItems_afterVal (g : Nat) (k : List Char) (v : JValue) (r3 : List Char) :
    (match (some (v, r3) : Option (JValue × List Char)) with
     | none => none
     | some (v, r3) =>
       match skipWs r3 with
       | [] => none
       | c3 :: r4 =>
         if c3 = ',' then
           match parseObjItems g r4 with
           | some (ms, r5) => some (JMems.cons (String.mk k) v ms, r5)
           | none => none
         else if c3 = '}' then some (JMems.cons (String.mk k) v .nil, r4)
         else none)
    = (match skipWs r3 with
      | [] => none
      | c3 :: r4 =>
        if c3 = ',' then
          match parseObjItems g r4 with
          | some (ms, r5) => some (JMems.cons (String.mk k) v ms, r5)
          | none => none
        else if c3 = '}' then some (JMems.cons (String.mk k) v .nil, r4)
        else none) := rfl

theorem parseObjItems_sepCons (g : Nat) (k : List Char) (v : JValue) (c3 : Char)
    (r4 : List Char) :
    (match c3 :: r4 with
     | [] => (none : Option (JMems × List Char))
     | c3 :: r4 =>
       if c3 = ',' then
         match parseObjItems g r4 with
         | some (ms, r5) => some (JMems.cons (String.mk k) v ms, r5)
         | none => none
       else if c3 = '}' then some (JMems.cons (String.mk k) v .nil, r4)
       else none)
    = (if c3 = ',' then
        match parseObjItems g r4 with
        | some (ms, r5) => some (JMems.cons (String.mk k) v ms, r5)
        | none => none
      else if c3 = '}' then some (JMems.cons (String.mk k) v .nil, r4)
      else none) := rfl

theorem parseObjItems_afterRec (k : List Char) (v : JValue) (ms : JMems) (r5 : List Char) :
    (match (some (ms, r5) : Option (JMems × List Char)) with
     | some (ms, r5) => some (JMems.cons (String.mk k) v ms, r5)
     | none => none)
    = some (JMems.cons (String.mk k) v ms, r5) := rfl

/-- The printer–parser round trip for the three mutual parsing functions,
proved simultaneously by strong induction on fuel. -/
theorem parse_ser_mutual : ∀ fuel : Nat,
    (∀ ind v rest, CanonVal v → (serVal ind v).length ≤ fuel → numSafe rest →
      parseVal fuel (serVal ind v ++ rest) = some (v, rest))
    ∧ (∀ ind x xs rest, CanonVal x → CanonItems xs →
        (serVal (ind + 1) x).length + (serItemsRest ind xs).length + 1 ≤ fuel →
        parseArrItems fuel (serVal (ind + 1) x ++ (serItemsRest ind xs ++ rest))
          = some (.cons x xs, rest))
    ∧ (∀ ind k v ms rest, strCanon k → CanonVal v → CanonMems ms →
        (serStr k).length + (serVal (ind + 1) v).length + (serMemsRest ind ms).length + 3 ≤ fuel →
        parseObjItems fuel
          (serStr k ++ (':' :: ' ' :: (serVal (ind + 1) v ++ (serMemsRest ind ms ++ rest))))
          = some (.cons k v ms, rest)) := by
  intro fuel
  induction fuel using Nat.strong_induction_on with
  | _ fuel IH =>
  cases fuel with
  | zero =>
    refine ⟨?_, ?_, ?_⟩
    · intro ind v rest _ hlen _
      have := serVal_length_pos ind v
      omega
    · intro ind x xs rest _ _ hlen
      omega
    · intro ind k v ms rest _ _ _ hlen
      omega
  | succ g =>
    have IH1 := (IH g (by omega)).1
    have IH2 := (IH g (by omega)).2.1
    have IH3 := (IH g (by omega)).2.2
    refine ⟨?_, ?_, ?_⟩
    · -- parseVal
      intro ind v rest hc hlen hsafe
      cases v with
      | null =>
        show parseVal (g + 1) ('n' :: ('u' :: 'l' :: 'l' :: rest)) = _
        rw [parseVal_succ_cons g _ _ (by decide), if_pos rfl,
          show ('u' :: 'l' :: 'l' :: rest : List Char) = ['u', 'l', 'l'] ++ rest from rfl,
          stripLit_self]
        rfl
      | bool b =>
        cases b with
        | true =>
          show parseVal (g + 1) ('t' :: ('r' :: 'u' :: 'e' :: rest)) = _
          rw [parseVal_succ_cons g _ _ (by decide), if_neg (by decide), if_pos rfl,
            show ('r' :: 'u' :: 'e' :: rest : List Char) = ['r', 'u', 'e'] ++ rest from rfl,
            stripLit_self]
          rfl
        | false =>
          show parseVal (g + 1) ('f' :: ('a' :: 'l' :: 's' :: 'e' :: rest)) = _
          rw [parseVal_succ_cons g _ _ (by decide), if_neg (by decide), if_neg (by decide),
            if_pos rfl,
            show ('a' :: 'l' :: 's' :: 'e' :: rest : List Char) = ['a', 'l', 's', 'e'] ++ rest
              from rfl,
            stripLit_self]
          rfl
      | num i =>
        have hnum := parseNumber_serInt i rest hsafe
        cases i with
        | ofNat n =>
          obtain ⟨d, ds, hd⟩ : ∃ d ds, natDigits (n + 1) n = d :: ds := by
            cases hnd : natDigits (n + 1) n with
            | nil => exact absurd hnd (natDigits_ne_nil _ _ (by omega))
            | cons d ds => exact ⟨d, ds, rfl⟩
          have hdig : d.isDigit = true := natDigits_all_digits (n + 1) n d (by rw [hd]; simp)
          have hf := isDigit_facts d hdig
          have hser : serInt (Int.ofNat n) = natDigits (n + 1) n := rfl
          show parseVal (g + 1) (natDigits (n + 1) n ++ rest) = _
          rw [hd, List.cons_append,
            parseVal_succ_cons g _ _ hf.1,
            if_neg hf.2.2.2.1, if_neg hf.2.2.2.2.1, if_neg hf.2.2.2.2.2.1,
            if_neg hf.2.2.2.2.2.2.1, if_neg hf.2.2.2.2.2.2.2.1, if_neg hf.2.2.2.2.2.2.2.2,
            ← List.cons_append, ← hd, ← hser, hnum]
          rfl
        | negSucc m =>
          show parseVal (g + 1) ('-' :: (natDigits (m + 2) (m + 1) ++ rest)) = _
          rw [parseVal_succ_cons g _ _ (by decide),
            if_neg (by decide), if_neg (by decide), if_neg (by decide), if_neg (by decide),
            if_neg (by decide), if_neg (by decide),
            show ('-' :: (natDigits (m + 2) (m + 1) ++ rest) : List Char)
              = serInt (Int.negSucc m) ++ rest from rfl,
            hnum]
          rfl
      | str st =>
        cases hc with
        | str _ hcanon =>
        show parseVal (g + 1) ('"' :: (escapeChars st.data ++ rest)) = _
        rw [parseVal_succ_cons g _ _ (by decide),
          if_neg (by decide), if_neg (by decide), if_neg (by decide), if_pos rfl]
        rw [parseStringBody_escapeChars st.data ((escapeChars st.data ++ rest).length + 1) rest
          hcanon (by
            have := escapeChars_length st.data
            simp only [List.length_append]
            omega)]
        simp [string_mk_data]
      | arr items =>
        cases hc with
        | arr _ hci =>
        cases items with
        | nil =>
          show parseVal (g + 1) ('[' :: (']' :: rest)) = _
          rw [parseVal_succ_cons g _ _ (by decide),
            if_neg (by decide), if_neg (by decide), if_neg (by decide), if_neg (by decide),
            if_pos rfl, skipWs_cons_of_not_ws _ (by decide), parseVal_arrBranch_cons,
            if_pos rfl]
        | cons x xs =>
          cases hci with
          | cons _ _ hcx hcxs =>
          obtain ⟨c2, r2, hc2, hws2, hbr2, -⟩ := serVal_cons (ind + 1) x
          have hshape : serVal ind (JValue.arr (JItems.cons x xs)) ++ rest
              = '[' :: ('\n' :: (indentChars (ind + 1)
                ++ (serVal (ind + 1) x ++ (serItemsRest ind xs ++ rest)))) := by
            show ('[' :: serItemsFirst ind (JItems.cons x xs)) ++ rest = _
            simp [serItemsFirst, List.append_assoc]
          rw [hshape, parseVal_succ_cons g _ _ (by decide),
            if_neg (by decide), if_neg (by decide), if_neg (by decide), if_neg (by decide),
            if_pos rfl, skipWs_item]
          have hlen' : (serVal (ind + 1) x).length + (serItemsRest ind xs).length + 1 ≤ g := by
            simp only [serVal, serItemsFirst, List.length_cons, List.length_append,
              indentChars, List.length_replicate] at hlen
            omega
          have hih := IH2 ind x xs rest hcx hcxs hlen'
          rw [hc2, List.cons_append, parseVal_arrBranch_cons, if_neg hbr2,
            ← List.cons_append, ← hc2, hih]
          rfl
      | obj mems =>
        cases hc with
        | obj _ hcm _ =>
        cases mems with
        | nil =>
          show parseVal (g + 1) ('{' :: ('}' :: rest)) = _
          rw [parseVal_succ_cons g _ _ (by decide),
            if_neg (by decide), if_neg (by decide), if_neg (by decide), if_neg (by decide),
            if_neg (by decide), if_pos rfl, skipWs_cons_of_not_ws _ (by decide),
            parseVal_objBranch_cons, if_pos rfl]
        | cons k v ms =>
          cases hcm with
          | cons _ _ _ hk hv hms =>
          have hshape : serVal ind (JValue.obj (JMems.cons k v ms)) ++ rest
              = '{' :: ('\n' :: (indentChars (ind + 1)
                ++ (serStr k ++ (':' :: ' ' :: (serVal (ind + 1) v
                  ++ (serMemsRest ind ms ++ rest)))))) := by
            show ('{' :: serMemsFirst ind (JMems.cons k v ms)) ++ rest = _
            simp [serMemsFirst, List.append_assoc]
          rw [hshape, parseVal_succ_cons g _ _ (by decide),
            if_neg (by decide), if_neg (by decide), if_neg (by decide), if_neg (by decide),
            if_neg (by decide), if_pos rfl,
            skipWs_cons_of_ws _ (Or.inr (Or.inl rfl)), skipWs_indent, skipWs_serStr_append]
          have hlen' : (serStr k).length + (serVal (ind + 1) v).length
              + (serMemsRest ind ms).length + 3 ≤ g := by
            simp only [serVal, serMemsFirst, List.length_cons, List.length_append,
              indentChars, List.length_replicate, serStr] at hlen ⊢
            omega
          have hih := IH3 ind k v ms rest hk hv hms hlen'
          rw [show serStr k ++ (':' :: ' ' :: (serVal (ind + 1) v
              ++ (serMemsRest ind ms ++ rest)))
            = '"' :: (escapeChars k.data ++ (':' :: ' ' :: (serVal (ind + 1) v
              ++ (serMemsRest ind ms ++ rest)))) from rfl,
            parseVal_objBranch_cons, if_neg (by decide),
            show ('"' : Char) :: (escapeChars k.data ++ (':' :: ' ' :: (serVal (ind + 1) v
              ++ (serMemsRest ind ms ++ rest))))
            = serStr k ++ (':' :: ' ' :: (serVal (ind + 1) v
              ++ (serMemsRest ind ms ++ rest))) from rfl,
            hih]
          rfl
    · -- parseArrItems
      intro ind x xs rest hcx hcxs hlen
      rw [parseArrItems_succ]
      have hx := IH1 (ind + 1) x (serItemsRest ind xs ++ rest) hcx (by omega) (by
        cases xs with
        | nil => exact (by decide : ('\n' : Char).isDigit = false)
        | cons y ys => exact (by decide : (',' : Char).isDigit = false))
      rw [hx, parseArrItems_afterVal]
      cases xs with
      | nil =>
        rw [show serItemsRest ind JItems.nil ++ rest
            = '\n' :: (indentChars ind ++ (']' :: rest)) by
          simp [serItemsRest]]
        rw [skipWs_cons_of_ws _ (Or.inr (Or.inl rfl)), skipWs_indent,
          skipWs_cons_of_not_ws _ (by decide), parseArrItems_sepCons,
          if_neg (by decide), if_pos rfl]
      | cons y ys =>
        cases hcxs with
        | cons _ _ hcy hcys =>
        rw [show serItemsRest ind (JItems.cons y ys) ++ rest
            = ',' :: ('\n' :: (indentChars (ind + 1)
              ++ (serVal (ind + 1) y ++ (serItemsRest ind ys ++ rest)))) by
          simp [serItemsRest, List.append_assoc]]
        rw [skipWs_cons_of_not_ws _ (by decide), parseArrItems_sepCons, if_pos rfl]
        have hlen' : (serVal (ind + 1) y).length + (serItemsRest ind ys).length + 1 ≤ g := by
          simp only [serItemsRest, List.length_cons, List.length_append,
            indentChars, List.length_replicate] at hlen
          omega
        have hih := IH2 ind y ys rest hcy hcys hlen'
        rw [← parseArrItems_skipWs g ('\n' :: (indentChars (ind + 1)
            ++ (serVal (ind + 1) y ++ (serItemsRest ind ys ++ rest)))),
          skipWs_item, hih, parseArrItems_afterRec]
    · -- parseObjItems
      intro ind k v ms rest hk hv hms hlen
      rw [parseObjItems_succ, skipWs_serStr_append,
        show serStr k ++ (':' :: ' ' :: (serVal (ind + 1) v ++ (serMemsRest ind ms ++ rest)))
          = '"' :: (escapeChars k.data ++ (':' :: ' ' :: (serVal (ind + 1) v
            ++ (serMemsRest ind ms ++ rest)))) from rfl,
        parseObjItems_keyCons, if_pos rfl,
        parseStringBody_escapeChars k.data _ _ hk (by
          have := escapeChars_length k.data
          simp only [List.length_append]
          omega),
        parseObjItems_afterKey,
        skipWs_cons_of_not_ws _ (by decide), parseObjItems_colonCons, if_pos rfl]
      have hval := IH1 (ind + 1) v (serMemsRest ind ms ++ rest) hv (by omega) (by
        cases ms with
        | nil => exact (by decide : ('\n' : Char).isDigit = false)
        | cons k2 v2 ms2 => exact (by decide : (',' : Char).isDigit = false))
      rw [← parseVal_skipWs g (' ' :: (serVal (ind + 1) v ++ (serMemsRest ind ms ++ rest))),
        skipWs_cons_of_ws _ (Or.inl rfl), skipWs_serVal_append, hval, parseObjItems_afterVal]
      cases ms with
      | nil =>
        rw [show serMemsRest ind JMems.nil ++ rest
            = '\n' :: (indentChars ind ++ ('}' :: rest)) by
          simp [serMemsRest]]
        rw [skipWs_cons_of_ws _ (Or.inr (Or.inl rfl)), skipWs_indent,
          skipWs_cons_of_not_ws _ (by decide), parseObjItems_sepCons,
          if_neg (by decide), if_pos rfl, string_mk_data]
      | cons k2 v2 ms2 =>
        cases hms with
        | cons _ _ _ hk2 hv2 hms2 =>
        rw [show serMemsRest ind (JMems.cons k2 v2 ms2) ++ rest
            = ',' :: ('\n' :: (indentChars (ind + 1)
              ++ (serStr k2 ++ (':' :: ' ' :: (serVal (ind + 1) v2
                ++ (serMemsRest ind ms2 ++ rest)))))) by
          simp [serMemsRest, List.append_assoc]]
        rw [skipWs_cons_of_not_ws _ (by decide), parseObjItems_sepCons, if_pos rfl]
        have hlen' : (serStr k2).length + (serVal (ind + 1) v2).length
            + (serMemsRest ind ms2).length + 3 ≤ g := by
          simp only [serMemsRest, List.length_cons, List.length_append,
            indentChars, List.length_replicate] at hlen
          omega
        have hih := IH3 ind k2 v2 ms2 rest hk2 hv2 hms2 hlen'
        rw [← parseObjItems_skipWs g ('\n' :: (indentChars (ind + 1)
            ++ (serStr k2 ++ (':' :: ' ' :: (serVal (ind + 1) v2
              ++ (serMemsRest ind ms2 ++ rest)))))),
          skipWs_cons_of_ws _ (Or.inr (Or.inl rfl)), skipWs_indent, skipWs_serStr_append,
          hih, parseObjItems_afterRec, string_mk_data]

/-- `json.loads` is a left inverse of `json.dumps(·, indent=2)` on
canonical payloads. -/
theorem loads_dumps (v : JValue) (h : CanonVal v) : loads (dumps v) = .ok v := by
  have h1 := (parse_ser_mutual ((serVal 0 v).length + 1)).1 0 v [] h (by omega) trivial
  rw [List.append_nil] at h1
  show (match parseVal ((serVal 0 v).length + 1) (serVal 0 v) with
    | some (v, rest) =>
        if (skipWs rest).isEmpty then Except.ok v
        else Except.error PyError.corruptDocumentError
    | none => Except.error PyError.corruptDocumentError) = Except.ok v
  rw [h1]
  exact rfl

/-! ## Normalization idempotence -/

theorem splitOnChar_ne_nil (sep : Char) (cs : List Char) : splitOnChar sep cs ≠ [] := by
  induction cs with
  | nil => simp [splitOnChar]
  | cons c cs ih =>
    unfold splitOnChar
    cases hrec : splitOnChar sep cs with
    | nil => simp
    | cons g gs => by_cases hc : c = sep <;> simp [hc]

theorem splitOnChar_cons_sep (sep : Char) (cs : List Char) :
    splitOnChar sep (sep :: cs) = [] :: splitOnChar sep cs := by
  cases hrec : splitOnChar sep cs with
  | nil => exact absurd hrec (splitOnChar_ne_nil _ _)
  | cons g gs => simp [splitOnChar, hrec]

theorem splitOnChar_cons_ne (sep c : Char) (cs : List Char) (hc : c ≠ sep) :
    splitOnChar sep (c :: cs) = (c :: (splitOnChar sep cs).headD []) :: (splitOnChar sep cs).tail := by
  cases hrec : splitOnChar sep cs with
  | nil => exact absurd hrec (splitOnChar_ne_nil _ _)
  | cons g gs => simp [splitOnChar, hrec, hc]

theorem splitOnChar_no_sep (sep : Char) (cs : List Char) :
    ∀ g ∈ splitOnChar sep cs, sep ∉ g := by
  induction cs with
  | nil =>
    intro g hg
    simp [splitOnChar] at hg
    simp [hg]
  | cons c cs ih =>
    intro g hg
    by_cases hc : c = sep
    · subst hc
      rw [splitOnChar_cons_sep] at hg
      rcases List.mem_cons.mp hg with h | h
      · simp [h]
      · exact ih g h
    · rw [splitOnChar_cons_ne sep c cs hc] at hg
      rcases List.mem_cons.mp hg with h | h
      · subst h
        intro hmem
        rcases List.mem_cons.mp hmem with h' | h'
        · exact hc h'.symm
        · cases hrec : splitOnChar sep cs with
          | nil => exact absurd hrec (splitOnChar_ne_nil _ _)
          | cons g0 gs0 =>
            rw [hrec] at h'
            exact ih g0 (hrec ▸ List.mem_cons_self _ _) (by simpa using h')
      · cases hrec : splitOnChar sep cs with
        | nil => exact absurd hrec (splitOnChar_ne_nil _ _)
        | cons g0 gs0 =>
          rw [hrec] at h
          exact ih g (hrec ▸ List.mem_cons_of_mem g0 (by simpa using h))

theorem splitOnChar_no_sep_id (sep : Char) (cs : List Char) (h : sep ∉ cs) :
    splitOnChar sep cs = [cs] := by
  induction cs with
  | nil => rfl
  | cons c cs ih =>
    have hc : c ≠ sep := fun he => h (he ▸ List.mem_cons_self _ _)
    have htl := ih (fun hm => h (List.mem_cons_of_mem _ hm))
    simp [splitOnChar, htl, hc]

theorem splitOnChar_append_no_sep (sep : Char) (g rest : List Char) (hg : sep ∉ g) :
    splitOnChar sep (g ++ sep :: rest) = g :: splitOnChar sep rest := by
  induction g with
  | nil =>
    simp only [List.nil_append]
    exact splitOnChar_cons_sep sep rest
  | cons c g' ih =>
    have hc : c ≠ sep := fun he => hg (he ▸ List.mem_cons_self _ _)
    have htl := ih (fun hm => hg (List.mem_cons_of_mem _ hm))
    simp [splitOnChar, htl, hc]

theorem splitOnChar_joinSlash (gs : List (List Char)) (hne : gs ≠ [])
    (h : ∀ g ∈ gs, '/' ∉ g) : splitOnChar '/' (joinSlash gs) = gs := by
  induction gs with
  | nil => exact absurd rfl hne
  | cons g gs' ih =>
    cases gs' with
    | nil =>
      show splitOnChar '/' g = [g]
      exact splitOnChar_no_sep_id '/' g (h g (List.mem_cons_self _ _))
    | cons g2 gs2 =>
      show splitOnChar '/' (g ++ '/' :: joinSlash (g2 :: gs2)) = _
      rw [splitOnChar_append_no_sep '/' g _ (h g (List.mem_cons_self _ _)),
        ih (by simp) (fun q hq => h q (List.mem_cons_of_mem _ hq))]

theorem foldl_normStep_clean (gs : List (List Char))
    (h : ∀ g ∈ gs, ¬(g = [] ∨ g = ['.']) ∧ g ≠ ['.', '.']) :
    ∀ acc, gs.foldl normStep acc = acc ++ gs := by
  induction gs with
  | nil => intro acc; simp
  | cons g gs ih =>
    intro acc
    have hg := h g (List.mem_cons_self _ _)
    have hstep : normStep acc g = acc ++ [g] := by
      unfold normStep
      rw [if_neg hg.1, if_neg hg.2]
    simp only [List.foldl_cons, hstep]
    rw [ih (fun q hq => h q (List.mem_cons_of_mem _ hq))]
    simp

theorem normalizeSegs_clean_id (gs : List (List Char))
    (h : ∀ g ∈ gs, ¬(g = [] ∨ g = ['.']) ∧ g ≠ ['.', '.']) :
    normalizeSegs gs = gs := by
  unfold normalizeSegs
  rw [foldl_normStep_clean gs h []]
  simp

theorem foldl_normStep_mem (gs : List (List Char)) :
    ∀ acc g, g ∈ gs.foldl normStep acc → g ∈ acc ∨ g ∈ gs := by
  induction gs with
  | nil => intro acc g hg; exact Or.inl hg
  | cons s gs ih =>
    intro acc g hg
    rcases ih (normStep acc s) g hg with h | h
    · unfold normStep at h
      split at h
      · exact Or.inl h
      · split at h
        · exact Or.inl (List.dropLast_subset _ h)
        · rcases List.mem_append.mp h with h' | h'
          · exact Or.inl h'
          · simp at h'
            exact Or.inr (h' ▸ List.mem_cons_self _ _)
    · exact Or.inr (List.mem_cons_of_mem _ h)

theorem foldl_normStep_not_bad (gs : List (List Char)) :
    ∀ acc, (∀ g ∈ acc, ¬(g = [] ∨ g = ['.']) ∧ g ≠ ['.', '.']) →
      ∀ g ∈ gs.foldl normStep acc, ¬(g = [] ∨ g = ['.']) ∧ g ≠ ['.', '.'] := by
  induction gs with
  | nil => intro acc hacc g hg; exact hacc g hg
  | cons s gs ih =>
    intro acc hacc
    apply ih
    intro g hg
    unfold normStep at hg
    split at hg
    · exact hacc g hg
    · split at hg
      · exact hacc g (List.dropLast_subset _ hg)
      · rcases List.mem_append.mp hg with h' | h'
        · exact hacc g h'
        · simp at h'
          subst h'
          constructor <;> assumption

theorem normalizeSegs_no_sep (p : String) :
    ∀ g ∈ normalizeSegs (pathSegs p), '/' ∉ g := by
  intro g hg
  rcases foldl_normStep_mem (pathSegs p) [] g hg with h | h
  · cases h
  · exact splitOnChar_no_sep '/' p.data g h

theorem normalizeSegs_good (p : String) :
    ∀ g ∈ normalizeSegs (pathSegs p), ¬(g = [] ∨ g = ['.']) ∧ g ≠ ['.', '.'] :=
  foldl_normStep_not_bad (pathSegs p) [] (by intro g hg; cases hg)

theorem normalizePath_of_clean (segs : List (List Char))
    (hsep : ∀ g ∈ segs, '/' ∉ g)
    (hgood : ∀ g ∈ segs, ¬(g = [] ∨ g = ['.']) ∧ g ≠ ['.', '.']) :
    normalizePath (String.mk ('/' :: joinSlash segs)) = String.mk ('/' :: joinSlash segs) := by
  unfold normalizePath pathSegs
  cases segs with
  | nil =>
    show String.mk ('/' :: joinSlash (normalizeSegs (splitOnChar '/' ['/']))) = _
    rfl
  | cons g gs =>
    show String.mk ('/' :: joinSlash (normalizeSegs
      (splitOnChar '/' ('/' :: joinSlash (g :: gs))))) = _
    rw [splitOnChar_cons_sep, splitOnChar_joinSlash (g :: gs) (by simp) hsep]
    have : normalizeSegs ([] :: g :: gs) = g :: gs := by
      unfold normalizeSegs
      rw [List.foldl_cons]
      rw [show normStep [] [] = [] from rfl]
      rw [foldl_normStep_clean (g :: gs) hgood []]
      simp
    rw [this]

theorem normalizePath_idem (p : String) :
    normalizePath (normalizePath p) = normalizePath p := by
  show normalizePath (String.mk ('/' :: joinSlash (normalizeSegs (pathSegs p)))) = _
  exact normalizePath_of_clean _ (normalizeSegs_no_sep p) (normalizeSegs_good p)

theorem isAbsolute_normalizePath (p : String) : isAbsolute (normalizePath p) = true := by
  show isAbsolute (String.mk ('/' :: joinSlash (normalizeSegs (pathSegs p)))) = true
  rfl

theorem resolve_path_ok_shape {base p rp : String}
    (h : resolve_path base p = .ok rp) :
    rp = normalizePath (pyPathJoin base p) ∧ underPath base rp = true := by
  have h' : (if underPath base (normalizePath (pyPathJoin base p)) = true
      then Except.ok (normalizePath (pyPathJoin base p))
      else (Except.error PyError.invalidPathError : Except PyError String)) = Except.ok rp := h
  by_cases hc : underPath base (normalizePath (pyPathJoin base p)) = true
  · rw [if_pos hc] at h'
    cases h'
    exact ⟨rfl, hc⟩
  · rw [if_neg hc] at h'
    cases h' 

theorem resolve_path_resolved {base p rp : String}
    (h : resolve_path base p = .ok rp) : resolve_path base rp = .ok rp := by
  obtain ⟨hrp, hunder⟩ := resolve_path_ok_shape h
  subst hrp
  unfold resolve_path
  rw [pyPathJoin_abs (isAbsolute_normalizePath _), normalizePath_idem]
  rw [if_pos hunder]

/-! ## Document round trip (C7) -/

/-- **C7**: for every canonical DataSource payload `d` (a JSON value with
integer numerics, BMP strings and duplicate-free object keys), writing it
with `save_to_storage_as_json` and reading it back with
`get_from_storage_as_dict` at the same (valid) path reconstructs a value
equal to `d`. -/
theorem c7_put_get_roundtrip (fs : FS) (path rp : String) (d : JValue)
    (hres : resolve_path defaultConfig.LUNAR_STORAGE_BASE_PATH path = .ok rp)
    (hd : CanonVal d) :
    ∃ fs', save_to_storage_as_json defaultConfig fs path d = .ok fs'
      ∧ get_from_storage_as_dict defaultConfig fs' path = .ok d := by
  have hres2 := resolve_path_resolved hres
  refine ⟨⟨(ancestorPaths rp).toFinset ∪ fs.dirs,
    (rp, dumps d) :: fs.files.filter (fun pc => pc.1 ≠ rp)⟩, ?_, ?_⟩
  · simp [save_to_storage_as_json, hres, write_path, hres2]
  · simp [get_from_storage_as_dict, read_path, hres, List.lookup, loads_dumps d hd]

/-- Concrete instantiation of the C7 theorem. -/
theorem c7_put_get_roundtrip_witness :
    ∃ fs', save_to_storage_as_json defaultConfig FS.empty
        "/lunar/users/u1/datasources/d1.json"
        (JValue.obj (.cons "id" (.str "d1")
          (.cons "type" (.str "LOCAL_FILE") .nil))) = .ok fs'
      ∧ get_from_storage_as_dict defaultConfig fs' "/lunar/users/u1/datasources/d1.json"
          = .ok (JValue.obj (.cons "id" (.str "d1")
              (.cons "type" (.str "LOCAL_FILE") .nil))) :=
  c7_put_get_roundtrip FS.empty "/lunar/users/u1/datasources/d1.json"
    "/lunar/users/u1/datasources/d1.json"
    (JValue.obj (.cons "id" (.str "d1") (.cons "type" (.str "LOCAL_FILE") .nil)))
    (by decide)
    (CanonVal.obj _
      (CanonMems.cons _ _ _ (by decide) (CanonVal.str _ (by decide))
        (CanonMems.cons _ _ _ (by decide) (CanonVal.str _ (by decide)) CanonMems.nil))
      (by decide))

/-! ## `get_all_as_dict` policy (C9) -/

theorem get_all_loop_filter (fs : FS) (paths : List String) :
    get_all_loop defaultConfig fs paths
      = get_all_loop defaultConfig fs (paths.filter (fun p => isJsonName p)) := by
  induction paths with
  | nil => rfl
  | cons p ps ih =>
    by_cases hp : isJsonName p = true
    · simp only [get_all_loop, hp, if_true, List.filter_cons_of_pos hp, ih]
    · simp only [get_all_loop, hp, if_false, Bool.false_eq_true,
        List.filter_cons_of_neg (by simpa using hp), ih]

theorem get_all_loop_error (fs : FS) :
    ∀ (l1 : List String) (p : String) (l2 : List String) (e : PyError),
      isJsonName p = true →
      (∀ q ∈ l1, isJsonName q = true →
        ∃ v, get_from_storage_as_dict defaultConfig fs q = .ok v) →
      get_from_storage_as_dict defaultConfig fs p = .error e →
      get_all_loop defaultConfig fs (l1 ++ p :: l2) = .error e := by
  intro l1
  induction l1 with
  | nil =>
    intro p l2 e hp _ herr
    simp only [List.nil_append, get_all_loop, hp, if_true, herr]
  | cons q l1 ih =>
    intro p l2 e hp hok herr
    by_cases hq : isJsonName q = true
    · obtain ⟨v, hv⟩ := hok q (List.mem_cons_self _ _) hq
      have hih := ih p l2 e hp (fun r hr => hok r (List.mem_cons_of_mem _ hr)) herr
      simp only [List.cons_append, get_all_loop, hq, if_true, hv, List.append_eq, hih]
    · simp only [List.cons_append, get_all_loop, hq, if_false, Bool.false_eq_true]
      exact ih p l2 e hp (fun r hr => hok r (List.mem_cons_of_mem _ hr)) herr

/-- **C9**: `get_all_as_dict` considers only matched paths whose name ends
with `.json` (case-insensitively), silently skipping the rest; when the
glob matches nothing it returns the empty sequence; and when any
considered document fails to load, the parse error propagates and fails
the whole call (the first considered failure's error is returned). -/
theorem c9_get_all_as_dict_policy (fs : FS) (path rp : String) (paths : List String)
    (hres : resolve_path defaultConfig.LUNAR_STORAGE_BASE_PATH path = .ok rp) :
    get_all_as_dict defaultConfig fs path [] = .ok []
    ∧ get_all_as_dict defaultConfig fs path paths
        = get_all_as_dict defaultConfig fs path (paths.filter (fun p => isJsonName p))
    ∧ (∀ l1 p l2 e, paths = l1 ++ p :: l2 → isJsonName p = true →
        (∀ q ∈ l1, isJsonName q = true →
          ∃ v, get_from_storage_as_dict defaultConfig fs q = .ok v) →
        get_from_storage_as_dict defaultConfig fs p = .error e →
        get_all_as_dict defaultConfig fs path paths = .error e) := by
  have hst : defaultConfig.LUNAR_STORAGE_TYPE = Storage.LOCAL := rfl
  refine ⟨?_, ?_, ?_⟩
  · simp [get_all_as_dict, hres, hst, get_all_loop]
  · simp [get_all_as_dict, hres, hst]
    exact get_all_loop_filter fs paths
  · intro l1 p l2 e hsplit hp hok herr
    subst hsplit
    simp [get_all_as_dict, hres, hst]
    exact get_all_loop_error fs l1 p l2 e hp hok herr

/-- Concrete instantiation of the C9 theorem: a corrupt `.JSON` document
fails the whole listing even though a non-`.json` path before it is
skipped. -/
theorem c9_get_all_as_dict_witness :
    get_all_as_dict defaultConfig
      ⟨∅, [("/lunar/users/u1/datasources/b.JSON", "not json")]⟩
      "/lunar/users/u1/datasources"
      ["/lunar/users/u1/datasources/a.txt", "/lunar/users/u1/datasources/b.JSON"]
      = .error PyError.corruptDocumentError :=
  (c9_get_all_as_dict_policy
      ⟨∅, [("/lunar/users/u1/datasources/b.JSON", "not json")]⟩
      "/lunar/users/u1/datasources" "/lunar/users/u1/datasources"
      ["/lunar/users/u1/datasources/a.txt", "/lunar/users/u1/datasources/b.JSON"]
      (by decide)).2.2
    ["/lunar/users/u1/datasources/a.txt"] "/lunar/users/u1/datasources/b.JSON" []
    PyError.corruptDocumentError rfl (by decide)
    (by
      intro q hq hj
      simp at hq
      rw [hq] at hj
      exact absurd hj (by decide))
    rfl

/-! ## DataSource type dispatch (C4) -/

/-- **C4**: the discriminator step of `polymorphic_validation` and the
`validate_type` field validator fail with the distinct unknown-type error
(the spec's `UnknownTypeError`, not a connection-attributes validation
error) exactly when the `type` field is absent or its case-normalized
value is not a registered member; a string naming a registered member in
any letter case succeeds, and the two error families are distinct
constructors. -/
theorem c4_unknown_type_distinct_error :
    polymorphic_validation_step none = .error (DSError.unknownType none)
    ∧ polymorphic_validation_step (some (.str "FTP"))
        = .error (DSError.unknownType (some "FTP"))
    ∧ (∀ s, dataSourceTypeOfName (pyUpper s) = none →
        polymorphic_validation_step (some (.str s))
            = .error (DSError.unknownType (some s))
        ∧ validate_type (.str s) = .error (DSError.unknownType (some s)))
    ∧ (∀ s t, dataSourceTypeOfName (pyUpper s) = some t →
        polymorphic_validation_step (some (.str s)) = .ok t
        ∧ validate_type (.str s) = .ok t)
    ∧ (∀ v f, DSError.unknownType v ≠ DSError.validationError f) := by
  refine ⟨rfl, rfl, ?_, ?_, ?_⟩
  · intro s hs
    constructor
    · simp only [polymorphic_validation_step, polymorphic_validation_type, hs]
    · simp only [validate_type, hs]
  · intro s t hs
    constructor
    · simp only [polymorphic_validation_step, polymorphic_validation_type, hs]
      cases t <;> rfl
    · simp only [validate_type, hs]
      cases t <;> rfl
  · intro v f h
    cases h

/-- Concrete instantiations of the C4 theorem: a lower-case and a
value-cased spelling of registered members succeed, an unregistered name
fails with the unknown-type error. -/
theorem c4_unknown_type_distinct_error_witness :
    (polymorphic_validation_step (some (.str "local_file"))
        = .ok DataSourceType.LOCAL_FILE)
    ∧ validate_type (.str "Postgresql") = .ok DataSourceType.POSTGRESQL
    ∧ validate_type (.str "ftp") = .error (DSError.unknownType (some "ftp")) :=
  ⟨(c4_unknown_type_distinct_error.2.2.2.1 "local_file" DataSourceType.LOCAL_FILE rfl).1,
   (c4_unknown_type_distinct_error.2.2.2.1 "Postgresql" DataSourceType.POSTGRESQL rfl).2,
   (c4_unknown_type_distinct_error.2.2.1 "ftp" rfl).2⟩

/-! ## Connection-attributes validation is structural (C3) -/

/-- **C3, counterexample**: a dict that is a fully-formed, structurally
valid record of the `POSTGRESQL` schema (host, credentials and database
all present) is nevertheless accepted by `validate_connection_attributes`
for a payload whose own type is `LOCAL_FILE`, because it also happens to
carry a `file_name` key: cross-type attribute reuse is not rejected when
the record is structurally compatible with the expected schema. -/
theorem c3_counterexample_cross_type_record_accepted :
    postgresqlValidate
        [("file_name", some "data.txt"), ("host", some "dbhost"),
         ("credentials", some "u:p"), ("database", some "mydb")]
      = .ok { host := "dbhost", credentials := "u:p", database := "mydb" }
    ∧ validate_connection_attributes (some DataSourceType.LOCAL_FILE)
        (RawAttrs.dict
          [("file_name", some "data.txt"), ("host", some "dbhost"),
           ("credentials", some "u:p"), ("database", some "mydb")])
      = .ok (ConnAttrs.localFile { file_name := "data.txt", file_type := none }) :=
  ⟨rfl, rfl⟩

/-- **C3, amended**: connection-attributes validation is purely structural
against the schema selected by the payload's own `type`, with no
provenance check. A record of the other discriminator's schema is
rejected exactly when it is structurally invalid for the expected schema:
a dict without a usable `file_name` fails `LOCAL_FILE` validation (in
particular every typed `Postgresql` record, whose dump has no `file_name`,
fails), while a dict carrying a `file_name` string is accepted as
`LOCAL_FILE` no matter what other schema it satisfies. -/
theorem c3_cross_type_rejection_is_structural (d : AttrDict) :
    (getStr d "file_name" = none →
      validate_connection_attributes (some DataSourceType.LOCAL_FILE) (RawAttrs.dict d)
        = .error (DSError.validationError "file_name"))
    ∧ (∀ fn, getStr d "file_name" = some fn →
      validate_connection_attributes (some DataSourceType.LOCAL_FILE) (RawAttrs.dict d)
        = .ok (ConnAttrs.localFile { file_name := fn, file_type := getStr d "file_type" }))
    ∧ (∀ q : PostgresqlConnectionAttributes,
      validate_connection_attributes (some DataSourceType.LOCAL_FILE) (RawAttrs.typedPg q)
        = .error (DSError.validationError "file_name")) := by
  refine ⟨?_, ?_, ?_⟩
  · intro hnone
    simp only [validate_connection_attributes, RawAttrs.model_dump,
      expectedConnectionValidate, localFileValidate, hnone, Except.map]
  · intro fn hfn
    simp only [validate_connection_attributes, RawAttrs.model_dump,
      expectedConnectionValidate, localFileValidate, hfn, Except.map]
  · intro q
    have hq : getStr
        [("host", some q.host), ("credentials", some q.credentials),
         ("database", some q.database)] "file_name" = none := by
      simp only [getStr, lookupKey]
      rw [if_neg (by decide), if_neg (by decide), if_neg (by decide)]
    simp only [validate_connection_attributes, RawAttrs.model_dump,
      expectedConnectionValidate, localFileValidate, hq, Except.map]

/-- Concrete instantiation of the C3 theorem: the fully-formed Postgres
dict carrying an extra `file_name` key is accepted under `LOCAL_FILE`. -/
theorem c3_cross_type_rejection_is_structural_witness :
    validate_connection_attributes (some DataSourceType.LOCAL_FILE)
      (RawAttrs.dict
        [("file_name", some "data.txt"), ("host", some "dbhost"),
         ("credentials", some "u:p"), ("database", some "mydb")])
      = .ok (ConnAttrs.localFile { file_name := "data.txt", file_type := none }) :=
  (c3_cross_type_rejection_is_structural
      [("file_name", some "data.txt"), ("host", some "dbhost"),
       ("credentials", some "u:p"), ("database", some "mydb")]).2.1
    "data.txt" rfl

/-! ## Frozen discriminator (C5) -/

/-- **C5**: on every constructed DataSource entity (an instance of either
concrete subclass), assigning any value to the `type` field — including
another discriminator such as `POSTGRESQL` onto a `LOCAL_FILE` entity —
fails with the frozen-field error and produces no updated entity, because
the subclasses declare `type` with `frozen=True` under
`validate_assignment = True`; so the discriminator set at construction is
preserved. -/
theorem c5_discriminator_frozen (inst : DSInstance) (v : TypeField) :
    inst.assign_type v = .error (DSError.frozenField "type") := by
  cases inst <;> rfl

/-- Concrete instantiation of the C5 theorem: assigning `POSTGRESQL` to a
constructed `LOCAL_FILE` entity with unchanged attributes fails with the
frozen-field error. -/
theorem c5_discriminator_frozen_witness :
    DSInstance.assign_type
        (DSInstance.localFile
          { id := "ds-1", connection_attributes := { file_name := "a.txt" } })
        (TypeField.enum DataSourceType.POSTGRESQL)
      = .error (DSError.frozenField "type") :=
  c5_discriminator_frozen
    (DSInstance.localFile
      { id := "ds-1", connection_attributes := { file_name := "a.txt" } })
    (TypeField.enum DataSourceType.POSTGRESQL)

end Lunar
